import Mathlib

/-!
Offline audio-processing driver: WAV container codec and frame pipeline.

A shallow embedding of `examples/wav_io.{h,cpp}`, `examples/run-offline.cpp` and
`examples/run-offline_debug.cpp`.

Modelling conventions.

* A byte is a `Nat` below 256; a file is a `List Nat` of bytes.
* `uint16_t` / `uint32_t` values are `Nat`s; every C++ expression that is evaluated in a
  fixed-width unsigned type carries its explicit `% 2^16` / `% 2^32`.
* `struct WavHeader` has thirteen naturally aligned members and no padding, so
  `sizeof(WavHeader) = 44`; its object representation is little-endian
  (`WavHeader.toBytes` / `WavHeader.ofBytes`).
* `std::ifstream` is a byte list with a get position and the `eofbit` / `failbit` flags;
  `badbit` (a device error) is outside the model.  `std::ofstream` is a byte list with a
  put position.  A file position may be moved past the end of the file by a seek.
* The external processing engine is a parameter: a state transformer on frame buffers
  that keeps the buffer length (the engine works in place on a fixed-size array).
* Loops that the source does not bound are given a fuel argument and return `none`
  when the fuel runs out; sufficiency of fuel is proved separately.
-/

namespace AudioProc

/-! ## Little-endian fields -/

/-- Object representation of a `uint16_t` (little-endian, two bytes). -/
def le16 (x : Nat) : List Nat :=
  [x % 256, x / 256 % 256]

/-- Object representation of a `uint32_t` (little-endian, four bytes). -/
def le32 (x : Nat) : List Nat :=
  [x % 256, x / 256 % 256, x / 65536 % 256, x / 16777216 % 256]

/-- Value of the `uint16_t` stored at byte offset `off` of `b`. -/
def rd16 (b : List Nat) (off : Nat) : Nat :=
  b.getD off 0 + 256 * b.getD (off + 1) 0

/-- Value of the `uint32_t` stored at byte offset `off` of `b`. -/
def rd32 (b : List Nat) (off : Nat) : Nat :=
  b.getD off 0 + 256 * b.getD (off + 1) 0 + 65536 * b.getD (off + 2) 0
    + 16777216 * b.getD (off + 3) 0

/-- The four `char`s stored at byte offset `off` of `b`. -/
def rdTag (b : List Nat) (off : Nat) : List Nat :=
  [b.getD off 0, b.getD (off + 1) 0, b.getD (off + 2) 0, b.getD (off + 3) 0]

/-! ## C string helpers -/

/-- The string literal `"RIFF"` with its terminating NUL. -/
def lit_RIFF : List Nat := [82, 73, 70, 70, 0]

/-- The string literal `"WAVE"` with its terminating NUL. -/
def lit_WAVE : List Nat := [87, 65, 86, 69, 0]

/-- The string literal `"fmt "` with its terminating NUL. -/
def lit_fmt : List Nat := [102, 109, 116, 32, 0]

/-- The string literal `"data"` with its terminating NUL. -/
def lit_data : List Nat := [100, 97, 116, 97, 0]

/-- C `strncmp(s1, s2, n)`: compares at most `n` characters as unsigned chars and stops
after a NUL that both strings share; the result is the difference at the first
mismatch, or 0. -/
def strncmp (s1 s2 : List Nat) (n : Nat) : Int :=
  match n with
  | 0 => 0
  | k + 1 =>
    if s1.headD 0 ≠ s2.headD 0 then (s1.headD 0 : Int) - (s2.headD 0 : Int)
    else if s1.headD 0 = 0 then 0
    else strncmp s1.tail s2.tail k

/-- C `strncpy(dest, src, n)`: the `n` characters stored into `dest` (the characters of
`src` up to its NUL, then NUL padding). -/
def strncpy (src : List Nat) (n : Nat) : List Nat :=
  match n with
  | 0 => []
  | k + 1 =>
    if src.headD 0 = 0 then List.replicate (k + 1) 0
    else src.headD 0 :: strncpy src.tail k

/-! ## `struct WavHeader` (wav_io.h) -/

/-- The header record of wav_io.h; `char[4]` members are lists of four bytes. -/
structure WavHeader where
  riff : List Nat
  file_size : Nat
  wave : List Nat
  fmt : List Nat
  fmt_size : Nat
  audio_format : Nat
  num_channels : Nat
  sample_rate : Nat
  byte_rate : Nat
  block_align : Nat
  bits_per_sample : Nat
  data : List Nat
  data_size : Nat
  deriving DecidableEq, Repr

/-- The value of `sizeof(WavHeader)`. -/
def sizeof_WavHeader : Nat := 44

/-- Object representation of a header: 44 bytes, members at offsets
0, 4, 8, 12, 16, 20, 22, 24, 28, 32, 34, 36, 40. -/
def WavHeader.toBytes (h : WavHeader) : List Nat :=
  rdTag h.riff 0 ++ le32 h.file_size ++ rdTag h.wave 0 ++ rdTag h.fmt 0 ++ le32 h.fmt_size
    ++ le16 h.audio_format ++ le16 h.num_channels ++ le32 h.sample_rate ++ le32 h.byte_rate
    ++ le16 h.block_align ++ le16 h.bits_per_sample ++ rdTag h.data 0 ++ le32 h.data_size

/-- The header whose object representation is the 44 bytes `b`. -/
def WavHeader.ofBytes (b : List Nat) : WavHeader where
  riff := rdTag b 0
  file_size := rd32 b 4
  wave := rdTag b 8
  fmt := rdTag b 12
  fmt_size := rd32 b 16
  audio_format := rd16 b 20
  num_channels := rd16 b 22
  sample_rate := rd32 b 24
  byte_rate := rd32 b 28
  block_align := rd16 b 32
  bits_per_sample := rd16 b 34
  data := rdTag b 36
  data_size := rd32 b 40

/-! ## Streams -/

/-- A `std::ifstream` opened in binary mode: contents, get position, state flags.
`seeks` counts the calls of `seekg` made on the stream (bookkeeping only). -/
structure IStream where
  bytes : List Nat
  pos : Nat
  eofbit : Bool
  failbit : Bool
  seeks : Nat
  deriving DecidableEq, Repr

/-- A freshly opened input file. -/
def IStream.ofFile (bytes : List Nat) : IStream :=
  { bytes := bytes, pos := 0, eofbit := false, failbit := false, seeks := 0 }

/-- The member `good()`: no state flag is set. -/
def IStream.good (s : IStream) : Bool :=
  !s.eofbit && !s.failbit

/-- The member `eof()`. -/
def IStream.eof (s : IStream) : Bool :=
  s.eofbit

/-- The member `fail()`. -/
def IStream.fail (s : IStream) : Bool :=
  s.failbit

/-- The member `read(buf, n)`: returns the stream afterwards and the characters stored
into `buf` (their number is `gcount()`).  On a stream that is not good nothing is
extracted and `failbit` is set; when fewer than `n` characters are available they are
all extracted and `eofbit | failbit` is set. -/
def IStream.read (s : IStream) (n : Nat) : IStream × List Nat :=
  if s.good then
    let got := (s.bytes.drop s.pos).take n
    if got.length = n then ({ s with pos := s.pos + n }, got)
    else ({ s with pos := s.pos + got.length, eofbit := true, failbit := true }, got)
  else ({ s with failbit := true }, [])

/-- The member `seekg(off, std::ios::beg)`: clears `eofbit`, then repositions unless
`fail()`. -/
def IStream.seekg_beg (s : IStream) (off : Nat) : IStream :=
  if s.failbit then { s with eofbit := false, seeks := s.seeks + 1 }
  else { s with eofbit := false, seeks := s.seeks + 1, pos := off }

/-- The member `seekg(off, std::ios::cur)` for a non-negative offset. -/
def IStream.seekg_cur (s : IStream) (off : Nat) : IStream :=
  if s.failbit then { s with eofbit := false, seeks := s.seeks + 1 }
  else { s with eofbit := false, seeks := s.seeks + 1, pos := s.pos + off }

/-- A `std::ofstream` opened in binary mode: contents and put position. -/
structure OStream where
  bytes : List Nat
  pos : Nat
  deriving DecidableEq, Repr

/-- A freshly created (truncated) output file. -/
def OStream.create : OStream :=
  { bytes := [], pos := 0 }

/-- The member `tellp()`. -/
def OStream.tellp (s : OStream) : Nat :=
  s.pos

/-- The member `seekp(pos)`. -/
def OStream.seekp (s : OStream) (p : Nat) : OStream :=
  { s with pos := p }

/-- The member `write(buf, n)` with `data` the `n` characters of `buf`: they replace
the bytes at the put position, extending the file where it is too short (a gap
left by a seek past the end reads as zero bytes). -/
def OStream.write (s : OStream) (data : List Nat) : OStream :=
  { bytes := s.bytes.take s.pos ++ List.replicate (s.pos - s.bytes.length) 0 ++ data
      ++ s.bytes.drop (s.pos + data.length),
    pos := s.pos + data.length }

/-! ## wav_io.cpp -/

/-- The `while` loop of `skipToDataChunk`.  Each turn reads a four-character chunk id
(the loop ends with `false` when that read fails) and a four-byte chunk size, returns
`true` on the id `"data"`, and otherwise seeks forward by the size.  A short read of
the size leaves `failbit` set, so the following `seekg` does not move and the value of
`chunk_size` is not used. -/
def skipLoop (fuel : Nat) (file : IStream) : Option (Bool × IStream) :=
  match fuel with
  | 0 => none
  | k + 1 =>
    let r1 := file.read 4
    let chunk_id := r1.2
    if r1.1.fail then some (false, r1.1)
    else
      let r2 := r1.1.read 4
      let chunk_size := rd32 r2.2 0
      if strncmp chunk_id lit_data 4 = 0 then some (true, r2.1)
      else skipLoop k (r2.1.seekg_cur chunk_size)

/-- The function `skipToDataChunk`: seeks to `20 + sizeof(uint32_t) + 16` from the
beginning, then runs the chunk loop. -/
def skipToDataChunk (file : IStream) : Option (Bool × IStream) :=
  skipLoop (file.bytes.length + 1) (file.seekg_beg (20 + 4 + 16))

/-- What `readWavHeader` leaves behind: its return value, the stream, and the three
reference parameters. -/
structure ReadResult where
  ok : Bool
  file : IStream
  header : WavHeader
  sample_rate : Nat
  channels : Nat
  deriving DecidableEq, Repr

/-- The function `readWavHeader`.  `header`, `sample_rate` and `channels` are the values
the reference parameters hold on entry. -/
def readWavHeader (file : IStream) (header : WavHeader) (sample_rate channels : Nat) :
    Option ReadResult :=
  let r := file.read sizeof_WavHeader
  let file := r.1
  let header := WavHeader.ofBytes (r.2 ++ header.toBytes.drop r.2.length)
  if r.2.length ≠ sizeof_WavHeader then
    some { ok := false, file := file, header := header, sample_rate := sample_rate,
           channels := channels }
  else if strncmp header.riff lit_RIFF 4 ≠ 0 then
    some { ok := false, file := file, header := header, sample_rate := sample_rate,
           channels := channels }
  else if strncmp header.wave lit_WAVE 4 ≠ 0 then
    some { ok := false, file := file, header := header, sample_rate := sample_rate,
           channels := channels }
  else if strncmp header.fmt lit_fmt 4 ≠ 0 then
    some { ok := false, file := file, header := header, sample_rate := sample_rate,
           channels := channels }
  else if header.audio_format ≠ 1 then
    some { ok := false, file := file, header := header, sample_rate := sample_rate,
           channels := channels }
  else if header.bits_per_sample ≠ 16 then
    some { ok := false, file := file, header := header, sample_rate := sample_rate,
           channels := channels }
  else
    let sample_rate := header.sample_rate
    let channels := header.num_channels
    if strncmp header.data lit_data 4 ≠ 0 then
      (skipToDataChunk file).map fun w =>
        { ok := w.1, file := w.2, header := header, sample_rate := sample_rate,
          channels := channels }
    else
      some { ok := true, file := file, header := header, sample_rate := sample_rate,
             channels := channels }

/-- The header record that `writeWavHeader` fills in.  `36 + data_size` and
`sample_rate * channels * bits_per_sample` are `uint32_t` expressions;
`channels * bits_per_sample / 8` is an `int` expression stored into a `uint16_t`. -/
def mkWavHeader (sample_rate channels data_size : Nat) : WavHeader :=
  let bits_per_sample := 16
  { riff := strncpy lit_RIFF 4
    file_size := (36 + data_size) % 2 ^ 32
    wave := strncpy lit_WAVE 4
    fmt := strncpy lit_fmt 4
    fmt_size := 16
    audio_format := 1
    num_channels := channels
    sample_rate := sample_rate
    bits_per_sample := bits_per_sample
    byte_rate := (sample_rate * channels % 2 ^ 32) * bits_per_sample % 2 ^ 32 / 8
    block_align := channels * bits_per_sample / 8 % 2 ^ 16
    data := strncpy lit_data 4
    data_size := data_size }

/-- The function `writeWavHeader`: fills a header and writes its 44 bytes at the put
position. -/
def writeWavHeader (file : OStream) (sample_rate channels data_size : Nat) : OStream :=
  file.write (mkWavHeader sample_rate channels data_size).toBytes

/-- The bytes `writeWavHeader` emits, as a list. -/
def wavHeaderBytes (sample_rate channels data_size : Nat) : List Nat :=
  (writeWavHeader OStream.create sample_rate channels data_size).bytes

/-! ## The frame loop and header finalisation (run-offline.cpp, run-offline_debug.cpp) -/

/-- The macro `DEFAULT_BLOCK_MS`. -/
def DEFAULT_BLOCK_MS : Nat := 10

/-- The value of `sizeof(int16_t)`. -/
def sizeof_int16 : Nat := 2

/-- The frame size in samples, `rate * DEFAULT_BLOCK_MS / 1000 * channels`, an
expression of type `unsigned int` (the `uint16_t` factor is promoted). -/
def frame_size (sample_rate channels : Nat) : Nat :=
  (sample_rate * DEFAULT_BLOCK_MS % 2 ^ 32) / 1000 * channels % 2 ^ 32

/-- The external engine as far as the drivers use it: the two in-place transforms,
each a state transformer on a frame buffer (given as its bytes) for a stream of the
stated rate and channel count.  Working in place, they keep the buffer length. -/
structure Engine (σ : Type) where
  ProcessReverseStream : σ → Nat → Nat → List Nat → σ × List Nat
  ProcessStream : σ → Nat → Nat → List Nat → σ × List Nat
  reverse_length : ∀ s r c buf, (ProcessReverseStream s r c buf).2.length = buf.length
  stream_length : ∀ s r c buf, (ProcessStream s r c buf).2.length = buf.length

/-- The engine that leaves every buffer as it is. -/
def Engine.passthrough : Engine Unit where
  ProcessReverseStream := fun s _ _ buf => (s, buf)
  ProcessStream := fun s _ _ buf => (s, buf)
  reverse_length := fun _ _ _ _ => rfl
  stream_length := fun _ _ _ _ => rfl

/-- The variables the frame loop updates.  `frames` lists the buffers handed to
`aec_file.write`, oldest first (bookkeeping only). -/
structure LoopState (σ : Type) where
  play_file : IStream
  rec_file : IStream
  aec_file : OStream
  total_data_size : Nat
  apm : σ
  frames : List (List Nat)

/-- The `while (!play_file.eof() && !rec_file.eof())` loop of run-offline.cpp.  The
result is the state on leaving the loop; `none` when `fuel` turns do not reach the
exit. -/
def frameLoop {σ : Type} (E : Engine σ) (play_sample_rate play_channels rec_sample_rate
    rec_channels : Nat) (fuel : Nat) (st : LoopState σ) : Option (LoopState σ) :=
  match fuel with
  | 0 => none
  | k + 1 =>
    if !st.play_file.eof && !st.rec_file.eof then
      let play_frame_size := frame_size play_sample_rate play_channels
      let rec_frame_size := frame_size rec_sample_rate rec_channels
      let rp := st.play_file.read (play_frame_size * sizeof_int16)
      let rr := st.rec_file.read (rec_frame_size * sizeof_int16)
      if rp.2.length < play_frame_size * sizeof_int16
          || rr.2.length < rec_frame_size * sizeof_int16 then
        some { st with play_file := rp.1, rec_file := rr.1 }
      else
        let a := E.ProcessReverseStream st.apm play_sample_rate play_channels rp.2
        let b := E.ProcessStream a.1 rec_sample_rate rec_channels rr.2
        frameLoop E play_sample_rate play_channels rec_sample_rate rec_channels k
          { play_file := rp.1
            rec_file := rr.1
            aec_file := st.aec_file.write b.2
            total_data_size := (st.total_data_size + rec_frame_size * sizeof_int16) % 2 ^ 32
            apm := b.1
            frames := st.frames ++ [b.2] }
    else some st

/-- The four statements after the loop: save the put position, seek to the header,
write the header again with the accumulated size, seek back. -/
def finalizeHeader (aec_file : OStream) (header_pos sample_rate channels
    total_data_size : Nat) : OStream :=
  let current_pos := aec_file.tellp
  let aec_file := aec_file.seekp header_pos
  let aec_file := writeWavHeader aec_file sample_rate channels total_data_size
  aec_file.seekp current_pos

/-- The part of `main` from the provisional header to the finalised one, for input
streams whose headers have been read: the output takes the rate and channel count of
the rec file. -/
def processStreams {σ : Type} (E : Engine σ) (apm : σ) (fuel : Nat)
    (play_file rec_file : IStream) (aec_file : OStream)
    (play_sample_rate play_channels rec_sample_rate rec_channels : Nat) :
    Option (LoopState σ) :=
  let sample_rate := rec_sample_rate
  let channels := rec_channels
  let header_pos := aec_file.tellp
  let aec_file := writeWavHeader aec_file sample_rate channels 0
  let total_data_size := 0
  (frameLoop E play_sample_rate play_channels rec_sample_rate rec_channels fuel
      { play_file := play_file, rec_file := rec_file, aec_file := aec_file,
        total_data_size := total_data_size, apm := apm, frames := [] }).map fun st =>
    { st with aec_file :=
        finalizeHeader st.aec_file header_pos sample_rate channels st.total_data_size }

/-! ## The two `main` functions -/

/-- What the program finds outside itself: `input p` is the content an input stream
opened on path `p` delivers (`none` when it cannot be opened), `output_ok p` tells
whether an output stream on `p` opens; the `uninit` fields are the indeterminate
values of the locals that `main` passes uninitialised to `readWavHeader`.  Distinct
streams are taken to be distinct files. -/
structure Env where
  input : String → Option (List Nat)
  output_ok : String → Bool
  uninit_header : WavHeader
  uninit_rate : Nat
  uninit_channels : Nat

/-- The value of `EXIT_SUCCESS`. -/
def EXIT_SUCCESS : Nat := 0

/-- The value of `EXIT_FAILURE`. -/
def EXIT_FAILURE : Nat := 1

/-- What a run of `main` leaves: the exit code, the paths on which a file stream was
constructed (in order), the content of the output file when it was opened, and the
loop variables after header finalisation when the run got that far. -/
structure MainResult (σ : Type) where
  exit_code : Nat
  opened : List String
  output : Option (List Nat)
  final : Option (LoopState σ)

/-- The part of both `main` functions from the `is_open` checks to the second
`readWavHeader`: the exit code on failure, else the two streams positioned after
their headers with the rates and channel counts read. -/
def openAndValidate (env : Env) (play_path rec_path out_path : String) :
    Option (Except Nat (ReadResult × ReadResult)) :=
  match env.input play_path with
  | none => some (.error EXIT_FAILURE)
  | some play_bytes =>
    match env.input rec_path with
    | none => some (.error EXIT_FAILURE)
    | some rec_bytes =>
      if !env.output_ok out_path then some (.error EXIT_FAILURE)
      else
        (readWavHeader (IStream.ofFile play_bytes) env.uninit_header env.uninit_rate
            env.uninit_channels).bind fun rp =>
          if !rp.ok then some (.error EXIT_FAILURE)
          else
            (readWavHeader (IStream.ofFile rec_bytes) env.uninit_header env.uninit_rate
                env.uninit_channels).bind fun rr =>
              if !rr.ok then some (.error EXIT_FAILURE)
              else some (.ok (rp, rr))

/-- The function `main` of run-offline.cpp.  `argv` is the argument vector with the
program name first (`argc` is its length), `apm` the engine as created and
configured, `fuel` the bound on the turns of the frame loop. -/
def main {σ : Type} (E : Engine σ) (apm : σ) (fuel : Nat) (argv : List String)
    (env : Env) : Option (MainResult σ) :=
  let argc := argv.length
  if argc ≠ 4 then
    some { exit_code := EXIT_FAILURE, opened := [], output := none, final := none }
  else
    let opened := [argv.getD 1 "", argv.getD 2 "", argv.getD 3 ""]
    let output := if env.output_ok (argv.getD 3 "") then some [] else none
    (openAndValidate env (argv.getD 1 "") (argv.getD 2 "") (argv.getD 3 "")).bind fun v =>
      match v with
      | .error code =>
        some { exit_code := code, opened := opened, output := output, final := none }
      | .ok (rp, rr) =>
        (processStreams E apm fuel rp.file rr.file OStream.create rp.sample_rate
            rp.channels rr.sample_rate rr.channels).map fun st =>
          { exit_code := EXIT_SUCCESS, opened := opened,
            output := some st.aec_file.bytes, final := some st }

/-- The class `DataDumper` as far as the debug driver relies on it: a recorder with a
state of its own, built from the flag and the output name, that is told about the
configuration, about every frame triple and about the engine after every frame.  It
has no access to the three streams of the driver and does not change the engine. -/
structure Dumper (δ σ : Type) where
  create : Bool → String → δ
  logProcessingParams : δ → δ
  dumpFrame : δ → List Nat → List Nat → List Nat → Nat → Nat → δ
  dumpEchoMetrics : δ → σ → δ

/-- The frame loop of run-offline_debug.cpp: as `frameLoop`, with the rec frame copied
to `processed_frame` before the engine runs on the copy, and the two recorder calls
before the write. -/
def frameLoopDebug {δ σ : Type} (D : Dumper δ σ) (E : Engine σ) (play_sample_rate
    play_channels rec_sample_rate rec_channels : Nat) (fuel : Nat) (st : LoopState σ)
    (dumper : δ) : Option (LoopState σ × δ) :=
  match fuel with
  | 0 => none
  | k + 1 =>
    if !st.play_file.eof && !st.rec_file.eof then
      let play_frame_size := frame_size play_sample_rate play_channels
      let rec_frame_size := frame_size rec_sample_rate rec_channels
      let rp := st.play_file.read (play_frame_size * sizeof_int16)
      let rr := st.rec_file.read (rec_frame_size * sizeof_int16)
      if rp.2.length < play_frame_size * sizeof_int16
          || rr.2.length < rec_frame_size * sizeof_int16 then
        some ({ st with play_file := rp.1, rec_file := rr.1 }, dumper)
      else
        let rec_frame := rr.2
        let processed_frame := rec_frame
        let a := E.ProcessReverseStream st.apm play_sample_rate play_channels rp.2
        let b := E.ProcessStream a.1 rec_sample_rate rec_channels processed_frame
        let dumper := D.dumpFrame dumper a.2 rec_frame b.2 play_frame_size rec_frame_size
        let dumper := D.dumpEchoMetrics dumper b.1
        frameLoopDebug D E play_sample_rate play_channels rec_sample_rate rec_channels k
          { play_file := rp.1
            rec_file := rr.1
            aec_file := st.aec_file.write b.2
            total_data_size := (st.total_data_size + rec_frame_size * sizeof_int16) % 2 ^ 32
            apm := b.1
            frames := st.frames ++ [b.2] }
          dumper
    else some (st, dumper)

/-- Index of the first occurrence of `pat` in `s` at or after index `i` of the
original string (`std::string::find`), `none` for `npos`. -/
def findFrom (pat : List Char) (s : List Char) (i : Nat) : Option Nat :=
  if pat.isPrefixOf s then some i
  else
    match s with
    | [] => none
    | _ :: t => findFrom pat t (i + 1)

/-- The output name with everything from the first `.wav` on removed. -/
def stripWav (out_path : String) : String :=
  match findFrom ".wav".toList out_path.toList 0 with
  | some i => String.mk (out_path.toList.take i)
  | none => out_path

/-- The function `main` of run-offline_debug.cpp.  As `main`, with the optional fifth
element of `argv` and the recorder `D`; the result also carries `debug_mode` and the
recorder as left at the end. -/
def debug_main {δ σ : Type} (D : Dumper δ σ) (E : Engine σ) (apm : σ) (fuel : Nat)
    (argv : List String) (env : Env) : Option (MainResult σ × Bool × Option δ) :=
  let argc := argv.length
  if argc < 4 || argc > 5 then
    some ({ exit_code := EXIT_FAILURE, opened := [], output := none, final := none },
      false, none)
  else
    let debug_mode := argc == 5 && argv.getD 4 "" == "--debug"
    let opened := [argv.getD 1 "", argv.getD 2 "", argv.getD 3 ""]
    let output := if env.output_ok (argv.getD 3 "") then some [] else none
    (openAndValidate env (argv.getD 1 "") (argv.getD 2 "") (argv.getD 3 "")).bind fun v =>
      match v with
      | .error code =>
        some ({ exit_code := code, opened := opened, output := output, final := none },
          debug_mode, none)
      | .ok (rp, rr) =>
        let sample_rate := rr.sample_rate
        let channels := rr.channels
        let dumper := D.create debug_mode (stripWav (argv.getD 3 ""))
        let dumper := D.logProcessingParams dumper
        let aec_file := OStream.create
        let header_pos := aec_file.tellp
        let aec_file := writeWavHeader aec_file sample_rate channels 0
        (frameLoopDebug D E rp.sample_rate rp.channels rr.sample_rate rr.channels fuel
            { play_file := rp.file, rec_file := rr.file, aec_file := aec_file,
              total_data_size := 0, apm := apm, frames := [] } dumper).map fun r =>
          let aec_file :=
            finalizeHeader r.1.aec_file header_pos sample_rate channels r.1.total_data_size
          ({ exit_code := EXIT_SUCCESS, opened := opened, output := some aec_file.bytes,
             final := some { r.1 with aec_file := aec_file } }, debug_mode, some r.2)

/-- A recorder that records nothing. -/
def Dumper.silent (σ : Type) : Dumper Unit σ where
  create := fun _ _ => ()
  logProcessingParams := fun d => d
  dumpFrame := fun d _ _ _ _ _ => d
  dumpEchoMetrics := fun d _ => d

/-! ## Predicates on streams -/

/-- The flags of an input stream agree with its position: `eofbit` is set only with
the position at or past the end, and `failbit` is not set without `eofbit`. -/
def IStream.Settled (s : IStream) : Prop :=
  (s.eofbit = true → s.bytes.length ≤ s.pos) ∧ (s.eofbit = false → s.failbit = false)

/-- The stream `s` is what a successful `readWavHeader` on some freshly opened file
leaves, with `rate` and `channels` the values it returned. -/
def Validated (s : IStream) (rate channels : Nat) : Prop :=
  ∃ bytes h0 sr0 ch0 res, readWavHeader (IStream.ofFile bytes) h0 sr0 ch0 = some res
    ∧ res.ok = true ∧ res.file = s ∧ res.sample_rate = rate ∧ res.channels = channels

/-! ## Concrete files used by the examples -/

/-- The canonical mono 16 kHz header with its first tag changed to `RIFX`. -/
def rifxHeader : List Nat :=
  [82, 73, 70, 88] ++ (wavHeaderBytes 16000 1 0).drop 4


/-- The first 36 bytes of the canonical mono 16 kHz header: the RIFF, WAVE and fmt
parts, up to the end of the format chunk. -/
def fmtPart : List Nat :=
  (wavHeaderBytes 16000 1 0).take 36

/-- A file with a `LIST` chunk (size 4, payload `INFO`) between the format chunk and
a `data` chunk of four zero bytes. -/
def listChunkFile : List Nat :=
  fmtPart ++ [76, 73, 83, 84] ++ le32 4 ++ [73, 78, 70, 79]
    ++ [100, 97, 116, 97] ++ le32 4 ++ [0, 0, 0, 0]

/-- A file with a single `JUNK` chunk of size 8 after the format chunk and no `data`
chunk; the last four payload bytes of the chunk spell `data`. -/
def junkChunkFile : List Nat :=
  fmtPart ++ [74, 85, 78, 75] ++ le32 8 ++ [0, 0, 0, 0, 100, 97, 116, 97]

/-- A far-end file of two samples and a near-end file of three samples, both mono at
100 Hz (one sample per frame); every other path cannot be opened for reading. -/
def demoEnv : Env where
  input := fun p =>
    if p = "far.wav" then some (wavHeaderBytes 100 1 4 ++ [1, 0, 2, 0])
    else if p = "near.wav" then some (wavHeaderBytes 100 1 6 ++ [3, 0, 4, 0, 5, 0])
    else none
  output_ok := fun _ => true
  uninit_header := mkWavHeader 0 0 0
  uninit_rate := 0
  uninit_channels := 0

/-- A mono 16 kHz input positioned after its canonical header, with `samples` samples
of silence as payload. -/
def silence16k (samples : Nat) : IStream :=
  { bytes := wavHeaderBytes 16000 1 (samples * 2) ++ List.replicate (samples * 2) 0,
    pos := 44, eofbit := false, failbit := false, seeks := 0 }

/-- A far-end file of two samples at 100 Hz (one sample per frame) and a near-end file
of two samples whose header announces the rate 429496830. -/
def overflowEnv : Env where
  input := fun p =>
    if p = "far.wav" then some (wavHeaderBytes 100 1 4 ++ [1, 0, 2, 0])
    else if p = "near.wav" then some (wavHeaderBytes 429496830 1 4 ++ [3, 0, 4, 0])
    else none
  output_ok := fun _ => true
  uninit_header := mkWavHeader 0 0 0
  uninit_rate := 0
  uninit_channels := 0

/-- Two mono input files of two samples each whose headers announce a sample rate of
50 Hz. -/
def lowRateEnv : Env where
  input := fun p =>
    if p = "far.wav" then some (wavHeaderBytes 50 1 4 ++ [1, 0, 2, 0])
    else if p = "near.wav" then some (wavHeaderBytes 50 1 4 ++ [3, 0, 4, 0])
    else none
  output_ok := fun _ => true
  uninit_header := mkWavHeader 0 0 0
  uninit_rate := 0
  uninit_channels := 0

/-! ## The diagnostics recorder (class `DataDumper`, run-offline_debug.cpp)

Floating-point arithmetic and the formatting of numbers as text are outside the
embedding: the values of type `double` / `float` range over a parameter type `ρ`, the
operations on them are the fields of `Numerics ρ`, and a text file is the sequence of
items inserted into it with `<<`.  Output to `std::cout` is not modelled. -/

/-- Conversion of an `int` value to `int16_t` (two's complement wrap-around). -/
def toInt16 (x : Int) : Int :=
  (x + 32768) % 65536 - 32768

/-- The `int16_t` samples held by a buffer of bytes (little-endian pairs). -/
def samplesOf : List Nat → List Int
  | lo :: hi :: rest => toInt16 (lo + 256 * hi) :: samplesOf rest
  | _ => []

/-- The method `DataDumper::findPeak` on the buffer `data[0 .. length)`: `abs` is
evaluated in `int`, its result is stored into an `int16_t`, and the running peak is
replaced when that value is larger. -/
def findPeak (data : List Int) (length : Nat) : Int :=
  (data.take length).foldl
    (fun peak x =>
      let abs_val := toInt16 (x.natAbs : Int)
      if abs_val > peak then abs_val else peak)
    0

/-- The floating-point operations the recorder uses: `calculateRMS` on a buffer, the
constant `-1.0f`, and the test `x > 0.0f && x > 0.5`. -/
structure Numerics (ρ : Type) where
  calculateRMS : List Int → ρ
  minus_one : ρ
  above_half : ρ → Bool

/-- One item inserted into a text stream: a string, an integer, a floating-point value,
or the manipulators `std::fixed << std::setprecision(3)`. -/
inductive Item (ρ : Type) where
  | text (s : String)
  | int (i : Int)
  | real (x : ρ)
  | fixed3

/-- A binary `std::ofstream` of the recorder; it is only ever appended to. -/
structure RawFile where
  is_open : Bool
  bytes : List Nat
  deriving DecidableEq, Repr

/-- A default-constructed stream member: not open. -/
def RawFile.unopened : RawFile :=
  { is_open := false, bytes := [] }

/-- The member `write`: nothing reaches a stream that is not open. -/
def RawFile.write (f : RawFile) (data : List Nat) : RawFile :=
  if f.is_open then { f with bytes := f.bytes ++ data } else f

/-- A text `std::ofstream` of the recorder. -/
structure TextFile (ρ : Type) where
  is_open : Bool
  items : List (Item ρ)

/-- A default-constructed stream member: not open. -/
def TextFile.unopened {ρ : Type} : TextFile ρ :=
  { is_open := false, items := [] }

/-- A chain of `<<` insertions: nothing reaches a stream that is not open. -/
def TextFile.put {ρ : Type} (f : TextFile ρ) (xs : List (Item ρ)) : TextFile ρ :=
  if f.is_open then { f with items := f.items ++ xs } else f

/-- The data members of `DataDumper`; `config_file` is the content of
`processing_config.txt` once `logProcessingParams` has written it. -/
structure DataDumper (ρ : Type) where
  enabled : Bool
  dump_dir : String
  frame_counter : Int
  play_raw_file : RawFile
  rec_raw_file : RawFile
  processed_raw_file : RawFile
  debug_log_file : TextFile ρ
  echo_metrics_file : TextFile ρ
  config_file : Option (List (Item ρ))

/-- The constructor `DataDumper(enable_dump, output_prefix)`; `can_open` tells which
paths open for writing once the dump directory exists. -/
def DataDumper.new {ρ : Type} (can_open : String → Bool) (enable_dump : Bool)
    ( output_prefix : String) : DataDumper ρ :=
  if !enable_dump then
    { enabled := enable_dump, dump_dir := "", frame_counter := 0,
      play_raw_file := RawFile.unopened, rec_raw_file := RawFile.unopened,
      processed_raw_file := RawFile.unopened, debug_log_file := TextFile.unopened,
      echo_metrics_file := TextFile.unopened, config_file := none }
  else
    let dump_dir := output_prefix ++ "_debug_dump"
    let debug_log_file : TextFile ρ :=
      { is_open := can_open (dump_dir ++ "/debug_log.txt"), items := [] }
    let echo_metrics_file : TextFile ρ :=
      { is_open := can_open (dump_dir ++ "/echo_metrics.txt"), items := [] }
    { enabled := enable_dump
      dump_dir := dump_dir
      frame_counter := 0
      play_raw_file := { is_open := can_open (dump_dir ++ "/play_raw.pcm"), bytes := [] }
      rec_raw_file := { is_open := can_open (dump_dir ++ "/rec_raw.pcm"), bytes := [] }
      processed_raw_file :=
        { is_open := can_open (dump_dir ++ "/processed_raw.pcm"), bytes := [] }
      debug_log_file :=
        if debug_log_file.is_open then
          debug_log_file.put
            [.text "Frame,Play_RMS,Rec_RMS,Processed_RMS,Play_Peak,Rec_Peak,Processed_Peak\n"]
        else debug_log_file
      echo_metrics_file :=
        if echo_metrics_file.is_open then
          echo_metrics_file.put
            [.text ("Frame,ERL_dB,ERLE_dB,Filter_Delay_ms,Residual_Echo_Likelihood,"
              ++ "Echo_Detected,AEC_Quality\n")]
        else echo_metrics_file
      config_file := none }

/-- The method `dumpFrame`; the three buffers are given as their bytes. -/
def DataDumper.dumpFrame {ρ : Type} (N : Numerics ρ) (d : DataDumper ρ)
    (play_data rec_data processed_data : List Nat) (play_frame_size rec_frame_size : Nat) :
    DataDumper ρ :=
  if !d.enabled then d
  else
    let frame_counter := d.frame_counter + 1
    let play_raw_file := d.play_raw_file.write (play_data.take (play_frame_size * sizeof_int16))
    let rec_raw_file := d.rec_raw_file.write (rec_data.take (rec_frame_size * sizeof_int16))
    let processed_raw_file :=
      d.processed_raw_file.write (processed_data.take (rec_frame_size * sizeof_int16))
    let debug_log_file :=
      if d.debug_log_file.is_open then
        let play_rms := N.calculateRMS ((samplesOf play_data).take play_frame_size)
        let rec_rms := N.calculateRMS ((samplesOf rec_data).take rec_frame_size)
        let processed_rms := N.calculateRMS ((samplesOf processed_data).take rec_frame_size)
        let play_peak := findPeak (samplesOf play_data) play_frame_size
        let rec_peak := findPeak (samplesOf rec_data) rec_frame_size
        let processed_peak := findPeak (samplesOf processed_data) rec_frame_size
        d.debug_log_file.put
          [.int frame_counter, .text ",", .fixed3, .real play_rms, .text ",", .real rec_rms,
            .text ",", .real processed_rms, .text ",", .int play_peak, .text ",",
            .int rec_peak, .text ",", .int processed_peak, .text "\n"]
      else d.debug_log_file
    { d with frame_counter := frame_counter, play_raw_file := play_raw_file,
             rec_raw_file := rec_raw_file, processed_raw_file := processed_raw_file,
             debug_log_file := debug_log_file }

/-- The fields of `webrtc::AudioProcessingStats` the recorder reads, each optional. -/
structure Stats (ρ : Type) where
  echo_return_loss : Option ρ
  echo_return_loss_enhancement : Option ρ
  residual_echo_likelihood : Option ρ
  divergent_filter_fraction : Option ρ
  delay_ms : Option Int

/-- The method `dumpEchoMetrics`, with `stats` what `apm->GetStatistics()` returns. -/
def DataDumper.dumpEchoMetrics {ρ : Type} (N : Numerics ρ) (d : DataDumper ρ)
    (stats : Stats ρ) : DataDumper ρ :=
  if !d.enabled || !d.echo_metrics_file.is_open then d
  else if d.frame_counter % 10 ≠ 0 then d
  else
    let erl_db := stats.echo_return_loss.getD N.minus_one
    let erle_db := stats.echo_return_loss_enhancement.getD N.minus_one
    let residual_echo_likelihood := stats.residual_echo_likelihood.getD N.minus_one
    let divergent_filter_fraction := stats.divergent_filter_fraction.getD N.minus_one
    let delay_ms := stats.delay_ms.getD (-1)
    let echo_metrics_file :=
      d.echo_metrics_file.put
        [.int d.frame_counter, .text ",", .fixed3, .real erl_db, .text ",", .real erle_db,
          .text ",", .int delay_ms, .text ",", .real residual_echo_likelihood, .text ",",
          .text (if N.above_half residual_echo_likelihood then "1" else "0"), .text ",",
          .real divergent_filter_fraction, .text "\n"]
    { d with echo_metrics_file := echo_metrics_file }

/-- The members of `webrtc::AudioProcessing::Config` the drivers set. -/
structure Config where
  echo_canceller_enabled : Bool
  gain_controller1_enabled : Bool
  gain_controller2_enabled : Bool
  gain_controller2_adaptive_digital_enabled : Bool
  high_pass_filter_enabled : Bool
  noise_suppression_enabled : Bool
  noise_suppression_level : Int

/-- The configuration both `main` functions apply; `kHigh` is the value of the
enumerator `NoiseSuppression::kHigh` of the engine library. -/
def mainConfig (kHigh : Int) : Config :=
  { echo_canceller_enabled := true
    gain_controller1_enabled := false
    gain_controller2_enabled := false
    gain_controller2_adaptive_digital_enabled := false
    high_pass_filter_enabled := false
    noise_suppression_enabled := false
    noise_suppression_level := kHigh }

/-- The text `enabled` or `disabled`. -/
def onOff (b : Bool) : String :=
  if b then "enabled" else "disabled"

/-- The method `logProcessingParams`. -/
def DataDumper.logProcessingParams {ρ : Type} (can_open : String → Bool)
    (d : DataDumper ρ) (config : Config) : DataDumper ρ :=
  if !d.enabled then d
  else if can_open (d.dump_dir ++ "/processing_config.txt") then
    let config_file : List (Item ρ) :=
        ([.text "Audio Processing Configuration:\n",
          .text "Echo Canceller: ", .text (onOff config.echo_canceller_enabled), .text "\n",
          .text "Gain Controller 1: ", .text (onOff config.gain_controller1_enabled),
          .text "\n",
          .text "Gain Controller 2: ", .text (onOff config.gain_controller2_enabled),
          .text "\n",
          .text "High Pass Filter: ", .text (onOff config.high_pass_filter_enabled),
          .text "\n",
          .text "Noise Suppression: ", .text (onOff config.noise_suppression_enabled),
          .text "\n"]
          ++ (if config.noise_suppression_enabled then
                [.text "Noise Suppression Level: ", .int config.noise_suppression_level,
                 .text "\n"]
              else []))
    { d with config_file := some config_file }
  else d

/-- The recorder of the debug driver as the `Dumper` it hands to `debug_main`;
`GetStatistics` is the engine's statistics query. -/
def DataDumper.asDumper {ρ σ : Type} (N : Numerics ρ) (can_open : String → Bool)
    (kHigh : Int) (GetStatistics : σ → Stats ρ) : Dumper (DataDumper ρ) σ where
  create := fun enable_dump out_name => DataDumper.new can_open enable_dump out_name
  logProcessingParams := fun d => DataDumper.logProcessingParams can_open d (mainConfig kHigh)
  dumpFrame := fun d play_data rec_data processed_data play_frame_size rec_frame_size =>
    DataDumper.dumpFrame N d play_data rec_data processed_data play_frame_size rec_frame_size
  dumpEchoMetrics := fun d apm => DataDumper.dumpEchoMetrics N d (GetStatistics apm)

/-- Exact stand-ins for the floating-point operations, for the examples: the "RMS" of
a buffer is its sum of squares. -/
def Numerics.sumSquares : Numerics Int where
  calculateRMS := fun data => (data.map fun x => x * x).sum
  minus_one := -1
  above_half := fun x => decide (x > 0)

/-- An engine query that never has statistics. -/
def noStats {ρ σ : Type} (_ : σ) : Stats ρ :=
  { echo_return_loss := none, echo_return_loss_enhancement := none,
    residual_echo_likelihood := none, divergent_filter_fraction := none, delay_ms := none }

/-! ## Basic facts about the codec -/

theorem wavHeaderBytes_eq (r c d : Nat) :
    wavHeaderBytes r c d =
      [82, 73, 70, 70] ++ le32 ((36 + d) % 2 ^ 32) ++ [87, 65, 86, 69, 102, 109, 116, 32]
        ++ le32 16 ++ le16 1 ++ le16 c ++ le32 r
        ++ le32 ((r * c % 2 ^ 32) * 16 % 2 ^ 32 / 8) ++ le16 (c * 16 / 8 % 2 ^ 16) ++ le16 16
        ++ [100, 97, 116, 97] ++ le32 d := by
  simp [wavHeaderBytes, writeWavHeader, OStream.write, OStream.create, mkWavHeader,
    WavHeader.toBytes, strncpy, lit_RIFF, lit_WAVE, lit_fmt, lit_data, rdTag, le32, le16]

theorem wavHeaderBytes_length (r c d : Nat) : (wavHeaderBytes r c d).length = 44 := by
  simp [wavHeaderBytes_eq, le32, le16]

theorem read_ofFile_append (hdr rest : List Nat) :
    (IStream.ofFile (hdr ++ rest)).read hdr.length =
      ({ bytes := hdr ++ rest, pos := hdr.length, eofbit := false, failbit := false,
         seeks := 0 }, hdr) := by
  simp [IStream.read, IStream.ofFile, IStream.good]

theorem rd32_le32 (x : Nat) (h : x < 2 ^ 32) : rd32 (le32 x) 0 = x := by
  simp [rd32, le32]
  omega

theorem strncmp_tag (a b c d p q r s : Nat) (hp : p ≠ 0) (hq : q ≠ 0) (hr : r ≠ 0)
    (hs : s ≠ 0) :
    strncmp [a, b, c, d] [p, q, r, s, 0] 4 = 0 ↔ [a, b, c, d] = [p, q, r, s] := by
  simp only [strncmp, List.headD_cons, List.tail_cons, ne_eq, ite_not]
  constructor
  · intro h
    split at h
    · rename_i h1
      subst h1
      rw [if_neg hp] at h
      split at h
      · rename_i h2
        subst h2
        rw [if_neg hq] at h
        split at h
        · rename_i h3
          subst h3
          rw [if_neg hr] at h
          split at h
          · rename_i h4
            subst h4
            rfl
          · omega
        · omega
      · omega
    · omega
  · intro h
    injection h with h1 h
    injection h with h2 h
    injection h with h3 h
    injection h with h4 _
    subst h1 h2 h3 h4
    simp [hp, hq, hr, hs]

theorem getD_take_append (l x : List Nat) (n i : Nat) (hi : i < n) (hn : n ≤ l.length) :
    (l.take n ++ x).getD i 0 = l.getD i 0 := by
  have h1 : i < (l.take n).length := by simp; omega
  have h2 : i < l.length := by omega
  simp [List.getD_eq_getElem?_getD, List.getElem?_append_left h1, List.getElem?_take, hi]

theorem read_ofFile_of_le (bytes : List Nat) (n : Nat) (h : n ≤ bytes.length) :
    (IStream.ofFile bytes).read n =
      ({ bytes := bytes, pos := n, eofbit := false, failbit := false, seeks := 0 },
        bytes.take n) := by
  simp [IStream.read, IStream.ofFile, IStream.good, h]

theorem ofBytes_take_append (bytes x : List Nat) (hlen : 44 ≤ bytes.length) :
    WavHeader.ofBytes (bytes.take 44 ++ x) = WavHeader.ofBytes bytes := by
  simp (disch := omega) only [WavHeader.ofBytes, rdTag, rd16, rd32, getD_take_append]

/-- The header of a fresh stream of at least 44 bytes: the five checks in terms of the
bytes of the file. -/
theorem readWavHeader_ofFile (bytes : List Nat) (h0 : WavHeader) (sr0 ch0 : Nat)
    (hlen : 44 ≤ bytes.length) :
    readWavHeader (IStream.ofFile bytes) h0 sr0 ch0 =
      if rdTag bytes 0 = [82, 73, 70, 70] ∧ rdTag bytes 8 = [87, 65, 86, 69]
          ∧ rdTag bytes 12 = [102, 109, 116, 32] ∧ rd16 bytes 20 = 1
          ∧ rd16 bytes 34 = 16 then
        if rdTag bytes 36 = [100, 97, 116, 97] then
          some { ok := true
                 file := { bytes := bytes, pos := 44, eofbit := false, failbit := false,
                           seeks := 0 }
                 header := WavHeader.ofBytes bytes
                 sample_rate := rd32 bytes 24
                 channels := rd16 bytes 22 }
        else
          (skipToDataChunk { bytes := bytes, pos := 44, eofbit := false, failbit := false,
                             seeks := 0 }).map fun w =>
            { ok := w.1, file := w.2, header := WavHeader.ofBytes bytes,
              sample_rate := rd32 bytes 24, channels := rd16 bytes 22 }
      else
        some { ok := false
               file := { bytes := bytes, pos := 44, eofbit := false, failbit := false,
                         seeks := 0 }
               header := WavHeader.ofBytes bytes
               sample_rate := sr0
               channels := ch0 } := by
  have hl : (List.take 44 bytes).length = 44 := by simp [hlen]
  unfold readWavHeader
  simp only [sizeof_WavHeader, read_ofFile_of_le bytes 44 hlen, hl,
    ofBytes_take_append bytes _ hlen, ne_eq, not_true_eq_false, if_false]
  have e1 : ∀ b : List Nat, strncmp (rdTag b 0) lit_RIFF 4 = 0 ↔ rdTag b 0 = [82, 73, 70, 70] :=
    fun b => strncmp_tag _ _ _ _ 82 73 70 70 (by decide) (by decide) (by decide) (by decide)
  have e2 : ∀ b : List Nat, strncmp (rdTag b 8) lit_WAVE 4 = 0 ↔ rdTag b 8 = [87, 65, 86, 69] :=
    fun b => strncmp_tag _ _ _ _ 87 65 86 69 (by decide) (by decide) (by decide) (by decide)
  have e3 : ∀ b : List Nat,
      strncmp (rdTag b 12) lit_fmt 4 = 0 ↔ rdTag b 12 = [102, 109, 116, 32] :=
    fun b => strncmp_tag _ _ _ _ 102 109 116 32 (by decide) (by decide) (by decide) (by decide)
  have e4 : ∀ b : List Nat,
      strncmp (rdTag b 36) lit_data 4 = 0 ↔ rdTag b 36 = [100, 97, 116, 97] :=
    fun b => strncmp_tag _ _ _ _ 100 97 116 97 (by decide) (by decide) (by decide) (by decide)
  have f1 : (WavHeader.ofBytes bytes).riff = rdTag bytes 0 := rfl
  have f2 : (WavHeader.ofBytes bytes).wave = rdTag bytes 8 := rfl
  have f3 : (WavHeader.ofBytes bytes).fmt = rdTag bytes 12 := rfl
  have f4 : (WavHeader.ofBytes bytes).data = rdTag bytes 36 := rfl
  have f5 : (WavHeader.ofBytes bytes).audio_format = rd16 bytes 20 := rfl
  have f6 : (WavHeader.ofBytes bytes).bits_per_sample = rd16 bytes 34 := rfl
  have f7 : (WavHeader.ofBytes bytes).sample_rate = rd32 bytes 24 := rfl
  have f8 : (WavHeader.ofBytes bytes).num_channels = rd16 bytes 22 := rfl
  simp only [f1, f2, f3, f4, f5, f6, f7, f8, e1, e2, e3, e4]
  by_cases c1 : rdTag bytes 0 = [82, 73, 70, 70] <;>
  by_cases c2 : rdTag bytes 8 = [87, 65, 86, 69] <;>
  by_cases c3 : rdTag bytes 12 = [102, 109, 116, 32] <;>
  by_cases c4 : rd16 bytes 20 = 1 <;>
  by_cases c5 : rd16 bytes 34 = 16 <;>
  by_cases c6 : rdTag bytes 36 = [100, 97, 116, 97] <;>
  simp [c1, c2, c3, c4, c5, c6]

/-! ## Claim theorems: the container codec -/

/-- C1. Header round trip: reading back the 44 bytes emitted by `writeWavHeader` for a
32-bit rate and a 16-bit channel count (any data size, any bytes after the header)
succeeds, returns that rate and channel count, reports 16 bits per sample, makes no
seek (the chunk walk is not entered) and leaves the read position at offset 44. -/
theorem header_round_trip (rate channels data_size : Nat) (rest : List Nat)
    (h0 : WavHeader) (sr0 ch0 : Nat) (hr : rate < 2 ^ 32) (hc : channels < 2 ^ 16) :
    ∃ res, readWavHeader (IStream.ofFile (wavHeaderBytes rate channels data_size ++ rest))
        h0 sr0 ch0 = some res
      ∧ res.ok = true ∧ res.sample_rate = rate ∧ res.channels = channels
      ∧ res.header.bits_per_sample = 16 ∧ res.file.seeks = 0 ∧ res.file.pos = 44 := by
  have hread := read_ofFile_append (wavHeaderBytes rate channels data_size) rest
  rw [wavHeaderBytes_length] at hread
  unfold readWavHeader
  simp only [sizeof_WavHeader, hread, wavHeaderBytes_length]
  simp [wavHeaderBytes_eq, WavHeader.ofBytes, rdTag, rd16, rd32, le32, le16, strncmp,
    lit_RIFF, lit_WAVE, lit_fmt, lit_data]
  omega

/-- Witness of C1: a mono 16 kHz header announcing 32000 data bytes. -/
theorem header_round_trip_witness :
    ∃ res, readWavHeader (IStream.ofFile (wavHeaderBytes 16000 1 32000 ++ []))
        (mkWavHeader 0 0 0) 0 0 = some res
      ∧ res.ok = true ∧ res.sample_rate = 16000 ∧ res.channels = 1
      ∧ res.header.bits_per_sample = 16 ∧ res.file.seeks = 0 ∧ res.file.pos = 44 :=
  header_round_trip 16000 1 32000 [] (mkWavHeader 0 0 0) 0 0 (by decide) (by decide)

/-- C3. Header validation is exact and precedes the chunk walk: on a fresh stream of
at least 44 bytes, a wrong RIFF, WAVE or fmt tag, a format code other than 1 or a bit
depth other than 16 makes `readWavHeader` fail with no seek, the read position at 44
and the rate and channel outputs left as they were, whatever bytes 36-39 are; when the
five checks pass and bytes 36-39 are `data`, it succeeds. -/
theorem header_validation_exact (bytes : List Nat) (h0 : WavHeader) (sr0 ch0 : Nat)
    (hlen : 44 ≤ bytes.length) :
    ((rdTag bytes 0 ≠ [82, 73, 70, 70] ∨ rdTag bytes 8 ≠ [87, 65, 86, 69]
        ∨ rdTag bytes 12 ≠ [102, 109, 116, 32] ∨ rd16 bytes 20 ≠ 1 ∨ rd16 bytes 34 ≠ 16) →
      ∃ res, readWavHeader (IStream.ofFile bytes) h0 sr0 ch0 = some res
        ∧ res.ok = false ∧ res.file.seeks = 0 ∧ res.file.pos = 44
        ∧ res.sample_rate = sr0 ∧ res.channels = ch0)
    ∧ ((rdTag bytes 0 = [82, 73, 70, 70] ∧ rdTag bytes 8 = [87, 65, 86, 69]
        ∧ rdTag bytes 12 = [102, 109, 116, 32] ∧ rd16 bytes 20 = 1 ∧ rd16 bytes 34 = 16
        ∧ rdTag bytes 36 = [100, 97, 116, 97]) →
      ∃ res, readWavHeader (IStream.ofFile bytes) h0 sr0 ch0 = some res
        ∧ res.ok = true) := by
  rw [readWavHeader_ofFile bytes h0 sr0 ch0 hlen]
  constructor
  · intro hbad
    have hneg : ¬ (rdTag bytes 0 = [82, 73, 70, 70] ∧ rdTag bytes 8 = [87, 65, 86, 69]
        ∧ rdTag bytes 12 = [102, 109, 116, 32] ∧ rd16 bytes 20 = 1
        ∧ rd16 bytes 34 = 16) := by
      rintro ⟨a1, a2, a3, a4, a5⟩
      rcases hbad with h | h | h | h | h
      · exact h a1
      · exact h a2
      · exact h a3
      · exact h a4
      · exact h a5
    rw [if_neg hneg]
    exact ⟨_, rfl, rfl, rfl, rfl, rfl, rfl⟩
  · rintro ⟨a1, a2, a3, a4, a5, a6⟩
    rw [if_pos ⟨a1, a2, a3, a4, a5⟩, if_pos a6]
    exact ⟨_, rfl, rfl⟩

/-- Witness of C3: the header with the tag `RIFX` is rejected before any seek and with
the outputs untouched; the intact header is accepted. -/
theorem header_validation_exact_witness :
    (∃ res, readWavHeader (IStream.ofFile rifxHeader) (mkWavHeader 0 0 0) 7 9 = some res
        ∧ res.ok = false ∧ res.file.seeks = 0 ∧ res.file.pos = 44
        ∧ res.sample_rate = 7 ∧ res.channels = 9)
    ∧ (∃ res, readWavHeader (IStream.ofFile (wavHeaderBytes 16000 1 0)) (mkWavHeader 0 0 0)
        7 9 = some res ∧ res.ok = true) :=
  ⟨(header_validation_exact rifxHeader (mkWavHeader 0 0 0) 7 9 (by decide)).1
      (Or.inl (by decide)),
   (header_validation_exact (wavHeaderBytes 16000 1 0) (mkWavHeader 0 0 0) 7 9
      (by decide)).2 ⟨by decide, by decide, by decide, by decide, by decide, by decide⟩⟩

/-- C7 (as stated) fails: with the largest data size the file-size field wraps to 35,
with rate 2^28 the byte-rate field is 0, and with 32768 channels the block-align field
is 0. -/
theorem emitted_fields_counterexample :
    rd32 (wavHeaderBytes 16000 1 4294967295) 4 ≠ 36 + 4294967295
    ∧ rd32 (wavHeaderBytes 268435456 1 0) 28 ≠ 268435456 * 1 * 2
    ∧ rd16 (wavHeaderBytes 16000 32768 0) 32 ≠ 32768 * 2 := by
  decide

/-- C7 (amended). `writeWavHeader` emits exactly 44 bytes holding the four tags at
offsets 0, 8, 12, 36, format-chunk size 16, format code 1, 16 bits per sample and the
given channel count, rate and data size; the derived fields are reduced to their field
width: file_size = (36 + data_size) mod 2^32, byte_rate = (rate * channels * 2) mod 2^29,
block_align = (channels * 2) mod 2^16, and they equal 36 + data_size,
rate * channels * 2 and channels * 2 whenever 36 + data_size < 2^32,
rate * channels < 2^28 and channels < 2^15 respectively. -/
theorem emitted_fields (rate channels data_size : Nat) (hr : rate < 2 ^ 32)
    (hc : channels < 2 ^ 16) (hd : data_size < 2 ^ 32) :
    (wavHeaderBytes rate channels data_size).length = 44
    ∧ rdTag (wavHeaderBytes rate channels data_size) 0 = [82, 73, 70, 70]
    ∧ rdTag (wavHeaderBytes rate channels data_size) 8 = [87, 65, 86, 69]
    ∧ rdTag (wavHeaderBytes rate channels data_size) 12 = [102, 109, 116, 32]
    ∧ rdTag (wavHeaderBytes rate channels data_size) 36 = [100, 97, 116, 97]
    ∧ rd32 (wavHeaderBytes rate channels data_size) 16 = 16
    ∧ rd16 (wavHeaderBytes rate channels data_size) 20 = 1
    ∧ rd16 (wavHeaderBytes rate channels data_size) 34 = 16
    ∧ rd16 (wavHeaderBytes rate channels data_size) 22 = channels
    ∧ rd32 (wavHeaderBytes rate channels data_size) 24 = rate
    ∧ rd32 (wavHeaderBytes rate channels data_size) 40 = data_size
    ∧ rd32 (wavHeaderBytes rate channels data_size) 4 = (36 + data_size) % 2 ^ 32
    ∧ rd32 (wavHeaderBytes rate channels data_size) 28 = rate * channels * 2 % 2 ^ 29
    ∧ rd16 (wavHeaderBytes rate channels data_size) 32 = channels * 2 % 2 ^ 16
    ∧ (36 + data_size < 2 ^ 32 →
        rd32 (wavHeaderBytes rate channels data_size) 4 = 36 + data_size)
    ∧ (rate * channels < 2 ^ 28 →
        rd32 (wavHeaderBytes rate channels data_size) 28 = rate * channels * 2)
    ∧ (channels < 2 ^ 15 →
        rd16 (wavHeaderBytes rate channels data_size) 32 = channels * 2) := by
  generalize hm : rate * channels = m
  have e := wavHeaderBytes_eq rate channels data_size
  rw [hm] at e
  rw [e]
  simp only [le32, le16, rd32, rd16, rdTag, List.cons_append, List.nil_append,
    List.getD_cons_zero, List.getD_cons_succ, List.length_cons, List.length_nil]
  refine ⟨trivial, trivial, trivial, trivial, trivial, trivial, trivial, trivial,
    by omega, by omega, by omega, by omega, by omega, by omega, ?_, ?_, ?_⟩ <;>
  · intro h
    omega

/-- Witness of C7: the mono 16 kHz header for 32000 data bytes. -/
theorem emitted_fields_witness :
    rd32 (wavHeaderBytes 16000 1 32000) 4 = 36 + 32000
    ∧ rd32 (wavHeaderBytes 16000 1 32000) 28 = 16000 * 1 * 2
    ∧ rd16 (wavHeaderBytes 16000 1 32000) 32 = 1 * 2 :=
  have h := emitted_fields 16000 1 32000 (by decide) (by decide) (by decide)
  ⟨h.2.2.2.2.2.2.2.2.2.2.2.2.2.2.1 (by decide),
   h.2.2.2.2.2.2.2.2.2.2.2.2.2.2.2.1 (by decide),
   h.2.2.2.2.2.2.2.2.2.2.2.2.2.2.2.2 (by decide)⟩

/-! ## Stream facts -/

theorem read_not_good (s : IStream) (n : Nat) (h : s.good = false) :
    s.read n = ({ s with failbit := true }, []) := by
  simp [IStream.read, h]

theorem read_full (s : IStream) (n : Nat) (h : s.good = true)
    (hn : n ≤ s.bytes.length - s.pos) :
    s.read n = ({ s with pos := s.pos + n }, (s.bytes.drop s.pos).take n) := by
  have : min n (s.bytes.length - s.pos) = n := by omega
  simp [IStream.read, h, this]

theorem read_short (s : IStream) (n : Nat) (h : s.good = true)
    (hn : s.bytes.length - s.pos < n) :
    s.read n = ({ s with pos := s.pos + (s.bytes.length - s.pos), eofbit := true,
                         failbit := true }, s.bytes.drop s.pos) := by
  have h1 : min n (s.bytes.length - s.pos) = s.bytes.length - s.pos := by omega
  have h3 : List.take n (List.drop s.pos s.bytes) = List.drop s.pos s.bytes := by
    apply List.take_of_length_le
    simp
    omega
  have h4 : ¬ (s.bytes.length - s.pos = n) := by omega
  simp [IStream.read, h, h1, h3, h4]

theorem good_iff (s : IStream) : s.good = true ↔ s.eofbit = false ∧ s.failbit = false := by
  simp [IStream.good]

/-- Enough fuel always ends the chunk loop. -/
theorem skipLoop_isSome (fuel : Nat) : ∀ s : IStream, 1 ≤ fuel →
    (s.good = true → 4 ≤ s.bytes.length - s.pos → (s.bytes.length - s.pos) / 8 + 2 ≤ fuel) →
    (skipLoop fuel s).isSome = true := by
  induction fuel with
  | zero => intro s h; omega
  | succ k ih =>
    intro s _ hfuel
    unfold skipLoop
    by_cases hg : s.good = true
    · by_cases h4 : s.pos + 4 ≤ s.bytes.length
      · have hg2 := (good_iff s).1 hg
        rw [read_full s 4 hg (by omega)]
        simp only [IStream.fail, hg2.2, Bool.false_eq_true, if_false]
        split
        · rfl
        · by_cases h8 : s.pos + 4 + 4 ≤ s.bytes.length
          · rw [read_full _ 4 (by simp [IStream.good, hg2.1, hg2.2]) (by simp; omega)]
            apply ih
            · have := hfuel hg (by omega); omega
            · intro _ hrem
              have := hfuel hg (by omega)
              simp only [IStream.seekg_cur, hg2.2, Bool.false_eq_true, if_false] at hrem ⊢
              omega
          · rw [read_short _ 4 (by simp [IStream.good, hg2.1, hg2.2]) (by simp; omega)]
            apply ih
            · have := hfuel hg (by omega); omega
            · intro hgood
              simp [IStream.seekg_cur, IStream.good] at hgood
      · rw [read_short s 4 hg (by omega)]
        simp [IStream.fail]
    · have hg : s.good = false := by simpa using hg
      rw [read_not_good s 4 hg]
      simp [IStream.fail]

theorem skipToDataChunk_isSome (file : IStream) : (skipToDataChunk file).isSome = true := by
  unfold skipToDataChunk
  apply skipLoop_isSome
  · omega
  · intro _ h
    have : (file.seekg_beg (20 + 4 + 16)).bytes = file.bytes := by
      unfold IStream.seekg_beg; split <;> rfl
    rw [this] at h ⊢
    omega

theorem readWavHeader_isSome (file : IStream) (h0 : WavHeader) (sr0 ch0 : Nat) :
    (readWavHeader file h0 sr0 ch0).isSome = true := by
  unfold readWavHeader
  simp only []
  repeat' split
  all_goals first | rfl | (simp only [Option.isSome_map']; exact skipToDataChunk_isSome _)

/-! ## Claim theorems: the chunk walk -/

/-- C2 (code defect). On a file with a `LIST` chunk between the format chunk and the
`data` chunk, `readWavHeader` fails: the chunk loop starts at offset 40 instead of 36,
takes the size field of the `LIST` chunk for a chunk id and the first four payload
bytes for a chunk size, and seeks far past the end of the file.  The claim asks for
success with the read position at offset 56. -/
theorem chunk_skip_fails_on_list_chunk :
    listChunkFile.length = 60
    ∧ rdTag listChunkFile 36 = [76, 73, 83, 84] ∧ rd32 listChunkFile 40 = 4
    ∧ rdTag listChunkFile 48 = [100, 97, 116, 97] ∧ rd32 listChunkFile 52 = 4
    ∧ (readWavHeader (IStream.ofFile listChunkFile) (mkWavHeader 0 0 0) 0 0).map
        (fun res => (res.ok, res.file.pos, res.file.seeks))
        = some (false, 1330007673, 2) := by
  decide

/-- C10 (code defect). On a file whose only chunk after the format chunk is a `JUNK`
chunk of size 8, `readWavHeader` reports success: the chunk loop, started at offset 40
instead of 36, finds the bytes `data` inside the payload of that chunk.  The claim asks
for failure. -/
theorem missing_data_chunk_accepted :
    junkChunkFile.length = 36 + 8 + 8
    ∧ rdTag junkChunkFile 36 = [74, 85, 78, 75] ∧ rd32 junkChunkFile 40 = 8
    ∧ (readWavHeader (IStream.ofFile junkChunkFile) (mkWavHeader 0 0 0) 0 0).map
        (fun res => (res.ok, res.file.pos, res.file.eofbit))
        = some (true, 52, true) := by
  decide

/-! ## Claim theorems: frame length -/

/-- C6 (as stated) fails: for the 32-bit rate 429496730 the product `rate * 10` wraps
and the frame length is 0 instead of 4294967. -/
theorem frame_length_counterexample :
    frame_size 429496730 1 ≠ 429496730 * 10 / 1000 * 1 := by
  decide

/-- C6 (amended). The frame length of a stream is computed from its own rate and
channel count in 32-bit unsigned arithmetic: it is
`((rate * 10 mod 2^32) / 1000 * channels) mod 2^32`, and it equals
`floor(rate * 10 / 1000) * channels` whenever `rate * 10 < 2^32` and that product is
below 2^32 (in particular for every rate up to 6553600 with any 16-bit channel
count). -/
theorem frame_length (rate channels : Nat) (hr : rate < 2 ^ 32) (hc : channels < 2 ^ 16) :
    frame_size rate channels = (rate * 10 % 2 ^ 32) / 1000 * channels % 2 ^ 32
    ∧ (rate * 10 < 2 ^ 32 → rate * 10 / 1000 * channels < 2 ^ 32 →
        frame_size rate channels = rate * 10 / 1000 * channels)
    ∧ (rate ≤ 6553600 → frame_size rate channels = rate * 10 / 1000 * channels) := by
  refine ⟨rfl, ?_, ?_⟩
  · intro h1 h2
    simp only [frame_size, DEFAULT_BLOCK_MS]
    rw [Nat.mod_eq_of_lt h1, Nat.mod_eq_of_lt h2]
  · intro h
    have h1 : rate * 10 < 2 ^ 32 := by omega
    have h2 : rate * 10 / 1000 ≤ 65536 := by omega
    have h3 : rate * 10 / 1000 * channels < 2 ^ 32 := by
      calc rate * 10 / 1000 * channels ≤ 65536 * channels := Nat.mul_le_mul_right _ h2
        _ < 2 ^ 32 := by omega
    simp only [frame_size, DEFAULT_BLOCK_MS]
    rw [Nat.mod_eq_of_lt h1, Nat.mod_eq_of_lt h3]

/-- Witness of C6: 16 kHz mono gives 160 samples, 48 kHz stereo gives 960. -/
theorem frame_length_witness :
    frame_size 16000 1 = 16000 * 10 / 1000 * 1 ∧ frame_size 48000 2 = 48000 * 10 / 1000 * 2 :=
  ⟨(frame_length 16000 1 (by decide) (by decide)).2.1 (by decide) (by decide),
   (frame_length 48000 2 (by decide) (by decide)).2.2 (by decide)⟩

/-! ## Claim theorems: the command line -/

/-- C9 (as stated) fails: with the unknown fourth argument `--verbose` the debug driver
opens the three files, processes both frames and exits with code 0. -/
theorem usage_errors_counterexample :
    (debug_main (Dumper.silent Unit) Engine.passthrough () 5
        ["prog", "far.wav", "near.wav", "out.wav", "--verbose"] demoEnv).map
      (fun r => (r.1.exit_code, r.1.opened, r.1.output.map List.length, r.2.1))
      = some (0, ["far.wav", "near.wav", "out.wav"], some 48, false) := by
  decide

theorem bind_opened {δ σ α : Type} (x : Option α)
    (f : α → Option (MainResult σ × Bool × Option δ)) (l : List String)
    (hf : ∀ a r, f a = some r → r.1.opened = l) (r : MainResult σ × Bool × Option δ)
    (h : x.bind f = some r) : r.1.opened = l := by
  cases x with
  | none => simp at h
  | some a => exact hf a r (by simpa using h)

/-- C9 (amended). The debug driver exits with a nonzero code before constructing any
file stream exactly when the number of user arguments is neither 3 nor 4; a fourth
argument other than `--debug` is not a usage error: the run is the one the first three
arguments alone give, with the recorder off. -/
theorem usage_errors {δ σ : Type} (D : Dumper δ σ) (E : Engine σ) (apm : σ) (fuel : Nat)
    (argv : List String) (env : Env) :
    ((∃ r, debug_main D E apm fuel argv env = some r ∧ r.1.exit_code ≠ 0
          ∧ r.1.opened = [])
        ↔ (argv.length - 1 ≠ 3 ∧ argv.length - 1 ≠ 4))
    ∧ (argv.length = 5 → argv.getD 4 "" ≠ "--debug" →
        debug_main D E apm fuel argv env = debug_main D E apm fuel (argv.take 4) env) := by
  constructor
  · constructor
    · rintro ⟨r, hr, _, hopen⟩
      by_contra hcon
      have hlen : ¬ (argv.length < 4 || argv.length > 5) = true := by
        simp only [Bool.or_eq_true, decide_eq_true_eq]
        omega
      unfold debug_main at hr
      simp only [hlen, if_false] at hr
      have : r.1.opened = [argv.getD 1 "", argv.getD 2 "", argv.getD 3 ""] := by
        refine bind_opened _ _ _ ?_ r hr
        intro v r2 hv
        cases v with
        | error code =>
          simp only [Option.some.injEq] at hv
          rw [← hv]
        | ok p =>
          obtain ⟨rp, rr⟩ := p
          simp only [Option.map_eq_some'] at hv
          obtain ⟨x, _, hx⟩ := hv
          rw [← hx]
      rw [this] at hopen
      exact absurd hopen (by simp)
    · intro h
      have hlen : (argv.length < 4 || argv.length > 5) = true := by
        simp only [Bool.or_eq_true, decide_eq_true_eq]
        omega
      refine ⟨({ exit_code := EXIT_FAILURE, opened := [], output := none, final := none },
        false, none), ?_, ?_, ?_⟩
      · unfold debug_main
        simp only [hlen, if_true]
      · simp [EXIT_FAILURE]
      · rfl
  · intro h5 hflag
    have h4 : (argv.take 4).length = 4 := by simp [h5]
    have hg : ∀ i, i < 4 → (argv.take 4).getD i "" = argv.getD i "" := by
      intro i hi
      simp [List.getD_eq_getElem?_getD, List.getElem?_take, hi]
    unfold debug_main
    simp only [h5, h4, hg 1 (by omega), hg 2 (by omega), hg 3 (by omega)]
    have e1 : (argv.getD 4 "" == "--debug") = false := by simpa using hflag
    simp only [e1]
    simp

/-- Witness of C9: the fourth argument `--verbose` changes nothing. -/
theorem usage_errors_witness :
    debug_main (Dumper.silent Unit) Engine.passthrough () 5
        ["prog", "far.wav", "near.wav", "out.wav", "--verbose"] demoEnv
      = debug_main (Dumper.silent Unit) Engine.passthrough () 5
        ["prog", "far.wav", "near.wav", "out.wav"] demoEnv :=
  (usage_errors (Dumper.silent Unit) Engine.passthrough () 5
    ["prog", "far.wav", "near.wav", "out.wav", "--verbose"] demoEnv).2 (by decide) (by decide)

/-! ## The frame loop -/

theorem write_at_end (s : OStream) (d : List Nat) (h : s.pos = s.bytes.length) :
    s.write d = { bytes := s.bytes ++ d, pos := s.bytes.length + d.length } := by
  simp [OStream.write, h]

theorem frameLoop_count {σ : Type} (E : Engine σ) (psr pch rsr rch : Nat)
    (hpl : 0 < frame_size psr pch) (hrl : 0 < frame_size rsr rch) (fuel : Nat) :
    ∀ st : LoopState σ, st.play_file.Settled → st.rec_file.Settled →
      min ((st.play_file.bytes.length - st.play_file.pos) / (frame_size psr pch * 2))
          ((st.rec_file.bytes.length - st.rec_file.pos) / (frame_size rsr rch * 2)) < fuel →
      ∃ st', frameLoop E psr pch rsr rch fuel st = some st'
        ∧ st'.frames.length = st.frames.length
            + min ((st.play_file.bytes.length - st.play_file.pos) / (frame_size psr pch * 2))
                ((st.rec_file.bytes.length - st.rec_file.pos) / (frame_size rsr rch * 2)) := by
  generalize hP : frame_size psr pch * 2 = pn
  generalize hR : frame_size rsr rch * 2 = rn
  have hpn : 0 < pn := by omega
  have hrn : 0 < rn := by omega
  induction fuel with
  | zero => intro st _ _ h; exact absurd h (Nat.not_lt_zero _)
  | succ k ih =>
    intro st hp hr hF
    unfold frameLoop
    simp only [sizeof_int16, hP, hR]
    by_cases he : (!st.play_file.eof && !st.rec_file.eof) = true
    · simp only [he, if_true]
      simp only [IStream.eof, Bool.and_eq_true, Bool.not_eq_true'] at he
      have hpg : st.play_file.good = true := by simp [IStream.good, he.1, hp.2 he.1]
      have hrg : st.rec_file.good = true := by simp [IStream.good, he.2, hr.2 he.2]
      by_cases hpf : pn ≤ st.play_file.bytes.length - st.play_file.pos
      · by_cases hrf : rn ≤ st.rec_file.bytes.length - st.rec_file.pos
        · rw [read_full _ _ hpg hpf, read_full _ _ hrg hrf]
          have l1 : (List.take pn (List.drop st.play_file.pos st.play_file.bytes)).length = pn := by
            simp; omega
          have l2 : (List.take rn (List.drop st.rec_file.pos st.rec_file.bytes)).length = rn := by
            simp; omega
          simp only [l1, l2, lt_self_iff_false, decide_False, Bool.or_self, Bool.false_eq_true,
            if_false]
          have d1 := Nat.div_eq_sub_div hpn hpf
          have d2 := Nat.div_eq_sub_div hrn hrf
          have a1 : st.play_file.bytes.length - (st.play_file.pos + pn)
              = st.play_file.bytes.length - st.play_file.pos - pn := by omega
          have a2 : st.rec_file.bytes.length - (st.rec_file.pos + rn)
              = st.rec_file.bytes.length - st.rec_file.pos - rn := by omega
          obtain ⟨st', h1, h2⟩ := ih
            { play_file := { st.play_file with pos := st.play_file.pos + pn }
              rec_file := { st.rec_file with pos := st.rec_file.pos + rn }
              aec_file := st.aec_file.write
                (E.ProcessStream (E.ProcessReverseStream st.apm psr pch
                  (List.take pn (List.drop st.play_file.pos st.play_file.bytes))).1 rsr rch
                  (List.take rn (List.drop st.rec_file.pos st.rec_file.bytes))).2
              total_data_size := (st.total_data_size + rn) % 2 ^ 32
              apm := (E.ProcessStream (E.ProcessReverseStream st.apm psr pch
                  (List.take pn (List.drop st.play_file.pos st.play_file.bytes))).1 rsr rch
                  (List.take rn (List.drop st.rec_file.pos st.rec_file.bytes))).1
              frames := st.frames ++ [(E.ProcessStream (E.ProcessReverseStream st.apm psr pch
                  (List.take pn (List.drop st.play_file.pos st.play_file.bytes))).1 rsr rch
                  (List.take rn (List.drop st.rec_file.pos st.rec_file.bytes))).2] }
            ⟨fun h => by simp [he.1] at h, fun _ => by simpa using hp.2 he.1⟩
            ⟨fun h => by simp [he.2] at h, fun _ => by simpa using hr.2 he.2⟩
            (by simp only [a1, a2]; omega)
          refine ⟨st', h1, ?_⟩
          rw [h2]
          simp only [a1, a2, List.length_append, List.length_singleton]
          omega
        · have hrf : st.rec_file.bytes.length - st.rec_file.pos < rn := by omega
          rw [read_full _ _ hpg hpf, read_short _ _ hrg hrf]
          have l2 : (List.drop st.rec_file.pos st.rec_file.bytes).length < rn := by
            simp; omega
          simp only [l2, decide_True, Bool.or_true, if_true]
          refine ⟨_, rfl, ?_⟩
          rw [Nat.div_eq_of_lt hrf]
          simp
      · have hpf : st.play_file.bytes.length - st.play_file.pos < pn := by omega
        rw [read_short _ _ hpg hpf]
        have l1 : (List.drop st.play_file.pos st.play_file.bytes).length < pn := by
          simp; omega
        simp only [l1, decide_True, Bool.true_or, if_true]
        refine ⟨_, rfl, ?_⟩
        rw [Nat.div_eq_of_lt hpf]
        simp
    · simp only [he, if_false]
      refine ⟨st, rfl, ?_⟩
      simp only [IStream.eof, Bool.and_eq_true, Bool.not_eq_true', not_and_or,
        Bool.not_eq_false] at he
      rcases he with h | h
      · have := hp.1 h
        have z : st.play_file.bytes.length - st.play_file.pos = 0 := by omega
        simp [z]
      · have := hr.1 h
        have z : st.rec_file.bytes.length - st.rec_file.pos = 0 := by omega
        simp [z]

theorem read_length_le (s : IStream) (n : Nat) : (s.read n).2.length ≤ n := by
  unfold IStream.read
  split
  · simp only []
    split <;> simp
  · simp

theorem foldl_write_at_end (new : List (List Nat)) : ∀ s : OStream, s.pos = s.bytes.length →
    new.foldl OStream.write s
      = { bytes := s.bytes ++ new.flatten, pos := s.bytes.length + new.flatten.length } := by
  induction new with
  | nil => intro s h; cases s; simp at h ⊢; exact h
  | cons f t ih =>
    intro s h
    rw [List.foldl_cons, write_at_end s f h, ih _ (by simp)]
    simp [Nat.add_assoc]

/-- Whatever the fuel, a run of the frame loop that ends has only appended whole
frames: every buffer written has the rec frame size, the output stream has received
exactly those buffers, and the byte total has grown by their size modulo 2^32. -/
theorem frameLoop_inv {σ : Type} (E : Engine σ) (psr pch rsr rch : Nat) (fuel : Nat) :
    ∀ st st' : LoopState σ, st.total_data_size < 2 ^ 32 →
      frameLoop E psr pch rsr rch fuel st = some st' →
      ∃ new, st'.frames = st.frames ++ new
        ∧ (∀ f ∈ new, f.length = frame_size rsr rch * 2)
        ∧ st'.aec_file = new.foldl OStream.write st.aec_file
        ∧ st'.total_data_size
            = (st.total_data_size + new.length * (frame_size rsr rch * 2)) % 2 ^ 32 := by
  induction fuel with
  | zero => intro st st' _ h; simp [frameLoop] at h
  | succ k ih =>
    intro st st' ht h
    unfold frameLoop at h
    simp only [sizeof_int16] at h
    split at h
    · split at h
      · simp only [Option.some.injEq] at h
        subst h
        exact ⟨[], by simp, by simp, rfl, by
          simp only [List.length_nil, Nat.zero_mul, Nat.add_zero]
          exact (Nat.mod_eq_of_lt ht).symm⟩
      · rename_i hc
        simp only [Bool.or_eq_true, decide_eq_true_eq, not_or, not_lt] at hc
        obtain ⟨new, h1, h2, h3, h4⟩ := ih _ st' (Nat.mod_lt _ (by decide)) h
        have hl := read_length_le st.rec_file (frame_size rsr rch * 2)
        refine ⟨(E.ProcessStream (E.ProcessReverseStream st.apm psr pch
          (st.play_file.read (frame_size psr pch * 2)).2).1 rsr rch
          (st.rec_file.read (frame_size rsr rch * 2)).2).2 :: new, ?_, ?_, ?_, ?_⟩
        · rw [h1]; simp
        · intro f hf
          rcases List.mem_cons.1 hf with hf | hf
          · rw [hf, E.stream_length]
            omega
          · exact h2 f hf
        · rw [h3]; rfl
        · rw [h4]
          simp only [List.length_cons]
          rw [Nat.mod_add_mod]
          congr 1
          ring
    · simp only [Option.some.injEq] at h
      subst h
      exact ⟨[], by simp, by simp, rfl, by
          simp only [List.length_nil, Nat.zero_mul, Nat.add_zero]
          exact (Nat.mod_eq_of_lt ht).symm⟩

/-- The debug loop differs from the plain loop only in the recorder it carries. -/
theorem frameLoopDebug_fst {δ σ : Type} (D : Dumper δ σ) (E : Engine σ)
    (psr pch rsr rch : Nat) (fuel : Nat) :
    ∀ (st : LoopState σ) (d : δ),
      (frameLoopDebug D E psr pch rsr rch fuel st d).map Prod.fst
        = frameLoop E psr pch rsr rch fuel st := by
  induction fuel with
  | zero => intro st d; rfl
  | succ k ih =>
    intro st d
    unfold frameLoopDebug frameLoop
    simp only []
    split
    · split
      · rfl
      · exact ih _ _
    · rfl

theorem read_settled (s : IStream) (n : Nat) (h : s.good = true) : (s.read n).1.Settled := by
  have hg := (good_iff s).1 h
  by_cases hn : n ≤ s.bytes.length - s.pos
  · rw [read_full s n h hn]
    exact ⟨fun he => by simp [hg.1] at he, fun _ => hg.2⟩
  · rw [read_short s n h (by omega)]
    exact ⟨fun _ => by simp only []; omega, fun he => by simp at he⟩

theorem read_not_fail (s : IStream) (n : Nat) (h : (s.read n).1.failbit = false) :
    (s.read n).1.good = true := by
  by_cases hg : s.good = true
  · by_cases hn : n ≤ s.bytes.length - s.pos
    · rw [read_full s n hg hn]
      simpa [IStream.good] using hg
    · rw [read_short s n hg (by omega)] at h
      simp at h
  · rw [read_not_good s n (by simpa using hg)] at h
    simp at h

theorem skipLoop_true_settled (fuel : Nat) : ∀ s s' : IStream,
    skipLoop fuel s = some (true, s') → s'.Settled := by
  induction fuel with
  | zero => intro s s' h; simp [skipLoop] at h
  | succ k ih =>
    intro s s' h
    unfold skipLoop at h
    simp only [IStream.fail] at h
    split at h
    · simp at h
    · rename_i hf
      split at h
      · simp only [Option.some.injEq, Prod.mk.injEq, true_and] at h
        rw [← h]
        exact read_settled _ _ (read_not_fail s 4 (by simpa using hf))
      · exact ih _ _ h

theorem readWavHeader_short (bytes : List Nat) (h0 : WavHeader) (sr0 ch0 : Nat)
    (hlen : bytes.length < 44) :
    ∃ res, readWavHeader (IStream.ofFile bytes) h0 sr0 ch0 = some res ∧ res.ok = false := by
  have hr : ((IStream.ofFile bytes).read 44).2.length ≠ 44 := by
    rw [read_short _ _ (by rfl) (by simp [IStream.ofFile]; omega)]
    simp [IStream.ofFile]
    omega
  unfold readWavHeader
  simp only [sizeof_WavHeader, hr, ne_eq, not_false_eq_true, if_true]
  exact ⟨_, rfl, rfl⟩

theorem validated_settled (s : IStream) (rate channels : Nat) (h : Validated s rate channels) :
    s.Settled := by
  obtain ⟨bytes, h0, sr0, ch0, res, hres, hok, hfile, _, _⟩ := h
  by_cases hlen : 44 ≤ bytes.length
  · rw [readWavHeader_ofFile bytes h0 sr0 ch0 hlen] at hres
    split at hres
    · split at hres
      · simp only [Option.some.injEq] at hres
        rw [← hfile, ← hres]
        exact ⟨fun he => by simp at he, fun _ => rfl⟩
      · simp only [Option.map_eq_some'] at hres
        obtain ⟨w, hw, hres⟩ := hres
        rw [← hres] at hok hfile
        simp only [] at hok hfile
        rw [← hfile]
        unfold skipToDataChunk at hw
        exact skipLoop_true_settled _ _ _ (by rw [hw, ← hok])
    · simp only [Option.some.injEq] at hres
      rw [← hres] at hok
      simp at hok
  · obtain ⟨res', h1, h2⟩ := readWavHeader_short bytes h0 sr0 ch0 (by omega)
    rw [h1] at hres
    simp only [Option.some.injEq] at hres
    rw [hres] at h2
    rw [h2] at hok
    simp at hok

theorem readWavHeader_canonical (rate channels data_size : Nat) (rest : List Nat)
    (h0 : WavHeader) (sr0 ch0 : Nat) (hr : rate < 2 ^ 32) (hc : channels < 2 ^ 16) :
    ∃ res, readWavHeader (IStream.ofFile (wavHeaderBytes rate channels data_size ++ rest))
        h0 sr0 ch0 = some res
      ∧ res.ok = true ∧ res.sample_rate = rate ∧ res.channels = channels
      ∧ res.file = { bytes := wavHeaderBytes rate channels data_size ++ rest, pos := 44,
                     eofbit := false, failbit := false, seeks := 0 } := by
  have hread := read_ofFile_append (wavHeaderBytes rate channels data_size) rest
  rw [wavHeaderBytes_length] at hread
  unfold readWavHeader
  simp only [sizeof_WavHeader, hread, wavHeaderBytes_length]
  simp [wavHeaderBytes_eq, WavHeader.ofBytes, rdTag, rd16, rd32, le32, le16, strncmp,
    lit_RIFF, lit_WAVE, lit_fmt, lit_data]
  omega

theorem validated_canonical (rate channels data_size : Nat) (rest : List Nat)
    (hr : rate < 2 ^ 32) (hc : channels < 2 ^ 16) :
    Validated { bytes := wavHeaderBytes rate channels data_size ++ rest, pos := 44,
                eofbit := false, failbit := false, seeks := 0 } rate channels := by
  obtain ⟨res, h1, h2, h3, h4, h5⟩ :=
    readWavHeader_canonical rate channels data_size rest (mkWavHeader 0 0 0) 0 0 hr hc
  exact ⟨_, _, _, _, res, h1, h2, h5, h3, h4⟩

/-! ## Header finalisation -/

theorem wavHeaderBytes_toBytes (r c d : Nat) :
    (mkWavHeader r c d).toBytes = wavHeaderBytes r c d := by
  simp [wavHeaderBytes, writeWavHeader, OStream.write, OStream.create]

theorem writeWavHeader_eq (s : OStream) (r c d : Nat) :
    writeWavHeader s r c d = s.write (wavHeaderBytes r c d) := by
  rw [← wavHeaderBytes_toBytes]
  rfl

theorem write_inside (s : OStream) (d : List Nat) (h : s.pos + d.length ≤ s.bytes.length) :
    s.write d = { bytes := s.bytes.take s.pos ++ d ++ s.bytes.drop (s.pos + d.length),
                  pos := s.pos + d.length } := by
  have : s.pos - s.bytes.length = 0 := by omega
  simp [OStream.write, this]

theorem finalizeHeader_eq (aec : OStream) (header_pos r c d : Nat)
    (h : header_pos + 44 ≤ aec.bytes.length) :
    finalizeHeader aec header_pos r c d
      = { bytes := aec.bytes.take header_pos ++ wavHeaderBytes r c d
            ++ aec.bytes.drop (header_pos + 44),
          pos := aec.pos } := by
  unfold finalizeHeader
  simp only [OStream.tellp, OStream.seekp, writeWavHeader_eq]
  rw [write_inside _ _ (by simp [wavHeaderBytes_length]; exact h)]
  simp [wavHeaderBytes_length]

/-- C8. Header patch-back: when the 44 bytes at the header offset lie inside the output
written so far, the finalisation step leaves the length of the output and the write
cursor as they were, makes those 44 bytes the header `writeWavHeader` emits for the
given rate, channel count and total data size, and changes no byte before or after
them. -/
theorem patch_back_frame (aec : OStream) (header_pos rate channels total : Nat)
    (h : header_pos + 44 ≤ aec.bytes.length) :
    (finalizeHeader aec header_pos rate channels total).bytes.length = aec.bytes.length
    ∧ (finalizeHeader aec header_pos rate channels total).pos = aec.pos
    ∧ ((finalizeHeader aec header_pos rate channels total).bytes.drop header_pos).take 44
        = wavHeaderBytes rate channels total
    ∧ (finalizeHeader aec header_pos rate channels total).bytes.take header_pos
        = aec.bytes.take header_pos
    ∧ (finalizeHeader aec header_pos rate channels total).bytes.drop (header_pos + 44)
        = aec.bytes.drop (header_pos + 44)
    ∧ (∀ i, i < header_pos ∨ header_pos + 44 ≤ i →
        (finalizeHeader aec header_pos rate channels total).bytes[i]? = aec.bytes[i]?) := by
  rw [finalizeHeader_eq aec header_pos rate channels total h]
  have hl := wavHeaderBytes_length rate channels total
  have ht : (List.take header_pos aec.bytes).length = header_pos := by
    simp; omega
  have e3 : List.drop header_pos (List.take header_pos aec.bytes ++ wavHeaderBytes rate channels total
      ++ List.drop (header_pos + 44) aec.bytes)
      = wavHeaderBytes rate channels total ++ List.drop (header_pos + 44) aec.bytes := by
    rw [List.append_assoc, List.drop_append_of_le_length (by omega)]
    rw [List.drop_eq_nil_of_le (by omega)]
    rfl
  have e5 : List.drop (header_pos + 44) (List.take header_pos aec.bytes
      ++ wavHeaderBytes rate channels total ++ List.drop (header_pos + 44) aec.bytes)
      = List.drop (header_pos + 44) aec.bytes := by
    have : (List.take header_pos aec.bytes ++ wavHeaderBytes rate channels total).length
        = header_pos + 44 := by simp [hl]; omega
    rw [← this, List.drop_left]
  refine ⟨?_, rfl, ?_, ?_, e5, ?_⟩
  · simp [hl]; omega
  · simp only [e3]
    rw [← hl, List.take_left]
  · simp only [List.append_assoc]
    rw [List.take_append_of_le_length (by omega), List.take_take]
    simp
  · intro i hi
    simp only []
    rcases hi with hi | hi
    · rw [List.append_assoc, List.getElem?_append_left (by omega)]
      rw [List.getElem?_take]
      simp [hi]
    · have hlen2 : (List.take header_pos aec.bytes ++ wavHeaderBytes rate channels total).length
          = header_pos + 44 := by simp [hl]; omega
      rw [List.getElem?_append_right (by omega), hlen2, List.getElem?_drop]
      congr 1
      omega

/-- Witness of C8: patching a header that is followed by four payload bytes. -/
theorem patch_back_frame_witness :
    (finalizeHeader { bytes := wavHeaderBytes 16000 1 0 ++ [1, 0, 2, 0], pos := 48 }
        0 16000 1 4).bytes.length = 48
    ∧ (finalizeHeader { bytes := wavHeaderBytes 16000 1 0 ++ [1, 0, 2, 0], pos := 48 }
        0 16000 1 4).pos = 48
    ∧ ((finalizeHeader { bytes := wavHeaderBytes 16000 1 0 ++ [1, 0, 2, 0], pos := 48 }
        0 16000 1 4).bytes.drop 0).take 44 = wavHeaderBytes 16000 1 4
    ∧ (finalizeHeader { bytes := wavHeaderBytes 16000 1 0 ++ [1, 0, 2, 0], pos := 48 }
        0 16000 1 4).bytes.drop (0 + 44) = [1, 0, 2, 0] :=
  have h := patch_back_frame { bytes := wavHeaderBytes 16000 1 0 ++ [1, 0, 2, 0], pos := 48 }
    0 16000 1 4 (by decide)
  ⟨h.1, h.2.1, h.2.2.1, h.2.2.2.2.1⟩

/-! ## Claim theorems: frame count and finalised sizes -/

theorem flatten_length_of_forall (l : List (List Nat)) (n : Nat)
    (h : ∀ f ∈ l, f.length = n) : l.flatten.length = l.length * n := by
  induction l with
  | nil => simp
  | cons f t ih =>
    rw [List.flatten_cons, List.length_append, List.length_cons,
      ih (fun g hg => h g (List.mem_cons_of_mem _ hg)), h f (List.mem_cons_self _ _)]
    ring

/-- C4. Frame count: for validated input streams with positive frame lengths, with
`P` and `R` payload bytes left in the far-end and near-end stream, the frame loop (of
either driver) ends, given more turns than frames, having written exactly
`min (P / (2 * play_len)) (R / (2 * rec_len))` frames, each of `rec_len` samples
(`2 * rec_len` bytes); the output has grown by exactly those frames and by no byte of a
partial frame. -/
theorem frame_count {δ σ : Type} (D : Dumper δ σ) (E : Engine σ) (apm : σ) (d : δ)
    (play_file rec_file : IStream) (aec_file : OStream) (psr pch rsr rch fuel : Nat)
    (hp : Validated play_file psr pch) (hr : Validated rec_file rsr rch)
    (hpl : 0 < frame_size psr pch) (hrl : 0 < frame_size rsr rch)
    (haec : aec_file.pos = aec_file.bytes.length)
    (hfuel : min ((play_file.bytes.length - play_file.pos) / (2 * frame_size psr pch))
        ((rec_file.bytes.length - rec_file.pos) / (2 * frame_size rsr rch)) < fuel) :
    ∃ st', frameLoop E psr pch rsr rch fuel
          { play_file := play_file, rec_file := rec_file, aec_file := aec_file,
            total_data_size := 0, apm := apm, frames := [] } = some st'
      ∧ (∃ d', frameLoopDebug D E psr pch rsr rch fuel
          { play_file := play_file, rec_file := rec_file, aec_file := aec_file,
            total_data_size := 0, apm := apm, frames := [] } d = some (st', d'))
      ∧ st'.frames.length
          = min ((play_file.bytes.length - play_file.pos) / (2 * frame_size psr pch))
              ((rec_file.bytes.length - rec_file.pos) / (2 * frame_size rsr rch))
      ∧ (∀ f ∈ st'.frames, f.length = 2 * frame_size rsr rch)
      ∧ st'.aec_file.bytes = aec_file.bytes ++ st'.frames.flatten
      ∧ st'.aec_file.bytes.length = aec_file.bytes.length
          + min ((play_file.bytes.length - play_file.pos) / (2 * frame_size psr pch))
              ((rec_file.bytes.length - rec_file.pos) / (2 * frame_size rsr rch))
            * (2 * frame_size rsr rch) := by
  rw [Nat.mul_comm 2 (frame_size psr pch), Nat.mul_comm 2 (frame_size rsr rch)] at hfuel ⊢
  obtain ⟨st', hrun, hcount⟩ := frameLoop_count E psr pch rsr rch hpl hrl fuel
    { play_file := play_file, rec_file := rec_file, aec_file := aec_file,
      total_data_size := 0, apm := apm, frames := [] }
    (validated_settled _ _ _ hp) (validated_settled _ _ _ hr) hfuel
  obtain ⟨new, hnew, hlen, hout, _⟩ := frameLoop_inv E psr pch rsr rch fuel _ st'
    (by simp) hrun
  simp only [List.nil_append, List.length_nil, Nat.zero_add] at hnew hcount
  rw [foldl_write_at_end new aec_file haec, ← hnew] at hout
  rw [← hnew] at hlen
  have hflat := flatten_length_of_forall st'.frames _ hlen
  refine ⟨st', hrun, ?_, hcount, hlen, ?_, ?_⟩
  · have hd := frameLoopDebug_fst D E psr pch rsr rch fuel
      { play_file := play_file, rec_file := rec_file, aec_file := aec_file,
        total_data_size := 0, apm := apm, frames := [] } d
    rw [hrun, Option.map_eq_some'] at hd
    obtain ⟨⟨s2, d2⟩, h1, h2⟩ := hd
    simp only [] at h2
    subst h2
    exact ⟨d2, h1⟩
  · rw [hout]
  · rw [hout]
    simp only [List.length_append, hflat, hcount]

theorem silence16k_remaining (samples : Nat) :
    (silence16k samples).bytes.length - (silence16k samples).pos = samples * 2 := by
  simp [silence16k, wavHeaderBytes_length]

theorem frame_size_16k_mono : frame_size 16000 1 = 160 := by
  decide

/-- Witness of C4: a far-end stream of 15900 samples and a near-end stream of 16000
samples, both mono 16 kHz, give 99 frames of 160 samples and 99 * 320 output bytes
after the header. -/
theorem frame_count_witness :
    ∃ st', frameLoop Engine.passthrough 16000 1 16000 1 100
          { play_file := silence16k 15900, rec_file := silence16k 16000,
            aec_file := writeWavHeader OStream.create 16000 1 0,
            total_data_size := 0, apm := (), frames := [] } = some st'
      ∧ st'.frames.length = 99
      ∧ (∀ f ∈ st'.frames, f.length = 2 * 160)
      ∧ st'.aec_file.bytes.length = 44 + 99 * (2 * 160) := by
  have hmin : min (((silence16k 15900).bytes.length - (silence16k 15900).pos)
        / (2 * frame_size 16000 1))
      (((silence16k 16000).bytes.length - (silence16k 16000).pos)
        / (2 * frame_size 16000 1)) = 99 := by
    rw [silence16k_remaining, silence16k_remaining, frame_size_16k_mono]
    decide
  obtain ⟨st', h1, _, h3, h4, _, h6⟩ :=
    frame_count (Dumper.silent Unit) Engine.passthrough () () (silence16k 15900)
      (silence16k 16000) (writeWavHeader OStream.create 16000 1 0) 16000 1 16000 1 100
      (validated_canonical 16000 1 (15900 * 2) _ (by decide) (by decide))
      (validated_canonical 16000 1 (16000 * 2) _ (by decide) (by decide))
      (by decide) (by decide) (by decide) (by rw [hmin]; decide)
  rw [hmin] at h3 h6
  rw [frame_size_16k_mono] at h4 h6
  exact ⟨st', h1, h3, h4, h6⟩

theorem writeWavHeader_create (r c d : Nat) :
    writeWavHeader OStream.create r c d = { bytes := wavHeaderBytes r c d, pos := 44 } := by
  rw [writeWavHeader_eq, write_at_end _ _ rfl]
  simp [OStream.create, wavHeaderBytes_length]

/-- Every run of `processStreams` on a fresh output file that ends leaves the header
for the accumulated total followed by the frames written, with the put position at the
end; the total is the number of bytes written modulo 2^32. -/
theorem processStreams_spec {σ : Type} (E : Engine σ) (apm : σ) (fuel : Nat)
    (play_file rec_file : IStream) (psr pch rsr rch : Nat) (st : LoopState σ)
    (hrun : processStreams E apm fuel play_file rec_file OStream.create psr pch rsr rch
      = some st) :
    st.aec_file.bytes = wavHeaderBytes rsr rch st.total_data_size ++ st.frames.flatten
    ∧ st.aec_file.pos = 44 + st.frames.flatten.length
    ∧ (∀ f ∈ st.frames, f.length = frame_size rsr rch * 2)
    ∧ st.total_data_size = st.frames.length * (frame_size rsr rch * 2) % 2 ^ 32 := by
  unfold processStreams at hrun
  simp only [Option.map_eq_some'] at hrun
  obtain ⟨pre, hpre, hst⟩ := hrun
  obtain ⟨new, hnew, hlen, hout, htot⟩ := frameLoop_inv E psr pch rsr rch fuel _ pre
    (by simp) hpre
  simp only [List.nil_append, Nat.zero_add] at hnew htot
  rw [writeWavHeader_create, foldl_write_at_end _ _ (by simp [wavHeaderBytes_length])] at hout
  have hfin := finalizeHeader_eq pre.aec_file OStream.create.tellp rsr rch pre.total_data_size
    (by rw [hout]; simp [OStream.create, OStream.tellp, wavHeaderBytes_length])
  rw [← hst]
  simp only [hfin, hnew]
  refine ⟨?_, ?_, hlen, ?_⟩
  · rw [hout]
    simp only [OStream.create, OStream.tellp, List.take_zero, List.nil_append, Nat.zero_add]
    rw [← wavHeaderBytes_length rsr rch 0, List.drop_left]
  · rw [hout]
    simp [wavHeaderBytes_length]
  · rw [htot]

theorem rd32_header_data_size (r c d : Nat) (rest : List Nat) (hd : d < 2 ^ 32) :
    rd32 (wavHeaderBytes r c d ++ rest) 40 = d := by
  simp [wavHeaderBytes_eq, rd32, le32, le16]
  omega

theorem rd32_header_file_size (r c d : Nat) (rest : List Nat) :
    rd32 (wavHeaderBytes r c d ++ rest) 4 = (36 + d) % 2 ^ 32 := by
  simp [wavHeaderBytes_eq, rd32, le32, le16]
  omega

/-- C5 (as stated) fails: with a near-end header announcing the rate 429496830 the
product `rate * 10` wraps to 1004 and the frame length is 1 sample; the run writes two
frames, 4 payload bytes and a data-size field of 4, while
`channels * 2 * F * floor(rate * 10 / 1000)` is 17179872. -/
theorem finalized_sizes_counterexample :
    (main Engine.passthrough () 3 ["prog", "far.wav", "near.wav", "out.wav"]
        overflowEnv).map
      (fun r => (r.exit_code, r.final.map (fun st => st.frames),
        r.output.map (fun b => (rd32 b 40, b.length - 44))))
      = some (0, some [[3, 0], [4, 0]], some (4, 4))
    ∧ 1 * 2 * (2 * (429496830 * 10 / 1000)) = 17179872 := by
  decide

/-- C5 (amended). For every run that reaches the end of the frame loop having written
`F` frames, the payload written after the 44-byte header is `F * (2 * frame length)`
bytes, the data-size field of the finalised header is that count modulo 2^32 and the
file-size field is 36 plus the data-size field modulo 2^32; when the 32-bit
computations do not wrap (`rate * 10 < 2^32`, `floor(rate*10/1000) * channels < 2^32`,
`36 + F * 2 * frame length < 2^32`) the data-size field and the payload size equal
`channels * 2 * (F * floor(rate * 10 / 1000))` and the file-size field is 36 more. -/
theorem finalized_sizes {σ : Type} (E : Engine σ) (apm : σ) (fuel : Nat)
    (play_file rec_file : IStream) (psr pch rsr rch : Nat) (st : LoopState σ)
    (hrun : processStreams E apm fuel play_file rec_file OStream.create psr pch rsr rch
      = some st) :
    st.aec_file.bytes.length - 44 = st.frames.length * (2 * frame_size rsr rch)
    ∧ rd32 st.aec_file.bytes 40 = st.frames.length * (2 * frame_size rsr rch) % 2 ^ 32
    ∧ rd32 st.aec_file.bytes 4
        = (36 + st.frames.length * (2 * frame_size rsr rch) % 2 ^ 32) % 2 ^ 32
    ∧ (rsr * 10 < 2 ^ 32 → rsr * 10 / 1000 * rch < 2 ^ 32 →
        36 + st.frames.length * (2 * frame_size rsr rch) < 2 ^ 32 →
        rd32 st.aec_file.bytes 40 = rch * 2 * (st.frames.length * (rsr * 10 / 1000))
        ∧ st.aec_file.bytes.length - 44 = rch * 2 * (st.frames.length * (rsr * 10 / 1000))
        ∧ rd32 st.aec_file.bytes 4
            = 36 + rch * 2 * (st.frames.length * (rsr * 10 / 1000))) := by
  obtain ⟨hbytes, _, hlen, htot⟩ := processStreams_spec E apm fuel play_file rec_file psr pch
    rsr rch st hrun
  have hflat := flatten_length_of_forall st.frames _ hlen
  rw [Nat.mul_comm 2 (frame_size rsr rch)]
  have h40 : rd32 st.aec_file.bytes 40
      = st.frames.length * (frame_size rsr rch * 2) % 2 ^ 32 := by
    rw [hbytes, rd32_header_data_size _ _ _ _ (by rw [htot]; exact Nat.mod_lt _ (by decide))]
    exact htot
  have h4 : rd32 st.aec_file.bytes 4
      = (36 + st.frames.length * (frame_size rsr rch * 2) % 2 ^ 32) % 2 ^ 32 := by
    rw [hbytes, rd32_header_file_size, htot]
  have hpay : st.aec_file.bytes.length - 44
      = st.frames.length * (frame_size rsr rch * 2) := by
    rw [hbytes, List.length_append, wavHeaderBytes_length, hflat]
    omega
  refine ⟨hpay, h40, h4, ?_⟩
  intro h1 h2 h3
  have hfs : frame_size rsr rch = rsr * 10 / 1000 * rch := by
    simp only [frame_size, DEFAULT_BLOCK_MS]
    rw [Nat.mod_eq_of_lt h1, Nat.mod_eq_of_lt h2]
  have hexact : st.frames.length * (frame_size rsr rch * 2)
      = rch * 2 * (st.frames.length * (rsr * 10 / 1000)) := by
    rw [hfs]; ring
  have hsmall : st.frames.length * (frame_size rsr rch * 2) < 2 ^ 32 := by omega
  rw [h40, h4, hpay, Nat.mod_eq_of_lt hsmall, Nat.mod_eq_of_lt h3, hexact]
  exact ⟨rfl, rfl, rfl⟩

/-- With validated inputs of positive frame length and more fuel than frames, the run
from the provisional header to the finalised one ends, and writes the minimum of the
two whole-frame counts. -/
theorem processStreams_count {σ : Type} (E : Engine σ) (apm : σ) (fuel : Nat)
    (play_file rec_file : IStream) (aec_file : OStream) (psr pch rsr rch : Nat)
    (hp : Validated play_file psr pch) (hr : Validated rec_file rsr rch)
    (hpl : 0 < frame_size psr pch) (hrl : 0 < frame_size rsr rch)
    (hfuel : min ((play_file.bytes.length - play_file.pos) / (frame_size psr pch * 2))
        ((rec_file.bytes.length - rec_file.pos) / (frame_size rsr rch * 2)) < fuel) :
    ∃ st, processStreams E apm fuel play_file rec_file aec_file psr pch rsr rch = some st
      ∧ st.frames.length
          = min ((play_file.bytes.length - play_file.pos) / (frame_size psr pch * 2))
              ((rec_file.bytes.length - rec_file.pos) / (frame_size rsr rch * 2)) := by
  obtain ⟨pre, hrun, hcount⟩ := frameLoop_count E psr pch rsr rch hpl hrl fuel
    { play_file := play_file, rec_file := rec_file,
      aec_file := writeWavHeader aec_file rsr rch 0,
      total_data_size := 0, apm := apm, frames := [] }
    (validated_settled _ _ _ hp) (validated_settled _ _ _ hr) hfuel
  simp only [List.length_nil, Nat.zero_add] at hcount
  unfold processStreams
  simp only [hrun, Option.map_some']
  exact ⟨_, rfl, hcount⟩

theorem silence16k_run :
    ∃ st, processStreams Engine.passthrough () 101 (silence16k 16000) (silence16k 16000)
        OStream.create 16000 1 16000 1 = some st ∧ st.frames.length = 100 := by
  obtain ⟨st, h1, h2⟩ := processStreams_count Engine.passthrough () 101 (silence16k 16000)
    (silence16k 16000) OStream.create 16000 1 16000 1
    (validated_canonical 16000 1 (16000 * 2) _ (by decide) (by decide))
    (validated_canonical 16000 1 (16000 * 2) _ (by decide) (by decide))
    (by decide) (by decide)
    (by rw [silence16k_remaining, frame_size_16k_mono]; decide)
  refine ⟨st, h1, ?_⟩
  rw [h2, silence16k_remaining, frame_size_16k_mono]
  decide

/-- Witness of C5: two mono 16 kHz inputs of 16000 samples each give 100 frames, 32000
payload bytes, a data-size field of 32000 and a file-size field of 32036. -/
theorem finalized_sizes_witness :
    ∃ st, processStreams Engine.passthrough () 101 (silence16k 16000) (silence16k 16000)
          OStream.create 16000 1 16000 1 = some st
      ∧ st.frames.length = 100
      ∧ st.aec_file.bytes.length - 44 = 32000
      ∧ rd32 st.aec_file.bytes 40 = 32000
      ∧ rd32 st.aec_file.bytes 4 = 32036 := by
  obtain ⟨st, hrun, hF⟩ := silence16k_run
  have h := finalized_sizes Engine.passthrough () 101 (silence16k 16000) (silence16k 16000)
    16000 1 16000 1 st hrun
  rw [hF, frame_size_16k_mono] at h
  obtain ⟨_, _, _, hex⟩ := h
  obtain ⟨e1, e2, e3⟩ := hex (by decide) (by decide) (by decide)
  exact ⟨st, hrun, hF, e2, e1, e3⟩

/-! ## Termination of the frame loop -/

/-- With both frame sizes zero and both streams good, no amount of fuel ends the frame
loop: each turn reads zero bytes from either stream, which sets no flag. -/
theorem frameLoop_zero_never {σ : Type} (E : Engine σ) (psr pch rsr rch : Nat)
    (hp0 : frame_size psr pch = 0) (hr0 : frame_size rsr rch = 0) (fuel : Nat) :
    ∀ st : LoopState σ, st.play_file.good = true → st.rec_file.good = true →
      frameLoop E psr pch rsr rch fuel st = none := by
  induction fuel with
  | zero => intro st _ _; rfl
  | succ k ih =>
    intro st hp hr
    have hp2 := (good_iff _).1 hp
    have hr2 := (good_iff _).1 hr
    unfold frameLoop
    simp only [sizeof_int16, hp0, hr0, Nat.zero_mul, IStream.eof, hp2.1, hr2.1,
      Bool.not_false, Bool.and_self, if_true]
    rw [read_full _ 0 hp (Nat.zero_le _), read_full _ 0 hr (Nat.zero_le _)]
    simp only [List.take_zero, List.length_nil, lt_self_iff_false, decide_False,
      Bool.or_self, Bool.false_eq_true, if_false]
    exact ih _ (by simpa [IStream.good] using hp2) (by simpa [IStream.good] using hr2)

/-- With settled streams and at least one positive frame size the frame loop ends
within as many turns as there are bytes left in the two streams (plus one), and it
ends with `eofbit` set on one of the streams. -/
theorem frameLoop_terminates {σ : Type} (E : Engine σ) (psr pch rsr rch : Nat)
    (hpos : 0 < frame_size psr pch ∨ 0 < frame_size rsr rch) (fuel : Nat) :
    ∀ st : LoopState σ, st.play_file.Settled → st.rec_file.Settled →
      (st.play_file.bytes.length - st.play_file.pos)
        + (st.rec_file.bytes.length - st.rec_file.pos) < fuel →
      ∃ st', frameLoop E psr pch rsr rch fuel st = some st'
        ∧ (st'.play_file.eofbit = true ∨ st'.rec_file.eofbit = true) := by
  generalize hP : frame_size psr pch * 2 = pn at *
  generalize hR : frame_size rsr rch * 2 = rn at *
  have hsum : 0 < pn + rn := by omega
  induction fuel with
  | zero => intro st _ _ h; exact absurd h (Nat.not_lt_zero _)
  | succ k ih =>
    intro st hp hr hF
    unfold frameLoop
    simp only [sizeof_int16, hP, hR]
    by_cases he : (!st.play_file.eof && !st.rec_file.eof) = true
    · simp only [he, if_true]
      simp only [IStream.eof, Bool.and_eq_true, Bool.not_eq_true'] at he
      have hpg : st.play_file.good = true := by simp [IStream.good, he.1, hp.2 he.1]
      have hrg : st.rec_file.good = true := by simp [IStream.good, he.2, hr.2 he.2]
      by_cases hpf : pn ≤ st.play_file.bytes.length - st.play_file.pos
      · by_cases hrf : rn ≤ st.rec_file.bytes.length - st.rec_file.pos
        · rw [read_full _ _ hpg hpf, read_full _ _ hrg hrf]
          have l1 : (List.take pn (List.drop st.play_file.pos st.play_file.bytes)).length
              = pn := by
            simp; omega
          have l2 : (List.take rn (List.drop st.rec_file.pos st.rec_file.bytes)).length
              = rn := by
            simp; omega
          simp only [l1, l2, lt_self_iff_false, decide_False, Bool.or_self,
            Bool.false_eq_true, if_false]
          apply ih
          · exact ⟨fun h => by simp [he.1] at h, fun _ => by simpa using hp.2 he.1⟩
          · exact ⟨fun h => by simp [he.2] at h, fun _ => by simpa using hr.2 he.2⟩
          · simp only []
            omega
        · have hrf : st.rec_file.bytes.length - st.rec_file.pos < rn := by omega
          rw [read_full _ _ hpg hpf, read_short _ _ hrg hrf]
          have l2 : (List.drop st.rec_file.pos st.rec_file.bytes).length < rn := by
            simp; omega
          simp only [l2, decide_True, Bool.or_true, if_true]
          exact ⟨_, rfl, Or.inr rfl⟩
      · have hpf : st.play_file.bytes.length - st.play_file.pos < pn := by omega
        rw [read_short _ _ hpg hpf]
        have l1 : (List.drop st.play_file.pos st.play_file.bytes).length < pn := by
          simp; omega
        simp only [l1, decide_True, Bool.true_or, if_true]
        exact ⟨_, rfl, Or.inl rfl⟩
    · simp only [he, if_false]
      refine ⟨st, rfl, ?_⟩
      simp only [IStream.eof, Bool.and_eq_true, Bool.not_eq_true', not_and_or,
        Bool.not_eq_false] at he
      exact he

theorem openAndValidate_lowRate :
    ∃ rp rr, openAndValidate lowRateEnv "far.wav" "near.wav" "out.wav" = some (.ok (rp, rr))
      ∧ rp.file.good = true ∧ rr.file.good = true
      ∧ rp.sample_rate = 50 ∧ rp.channels = 1 ∧ rr.sample_rate = 50 ∧ rr.channels = 1 := by
  obtain ⟨rp, hp, hpok, hpr, hpc, hpf⟩ := readWavHeader_canonical 50 1 4 [1, 0, 2, 0]
    (mkWavHeader 0 0 0) 0 0 (by decide) (by decide)
  obtain ⟨rr, hr, hrok, hrr, hrc, hrf⟩ := readWavHeader_canonical 50 1 4 [3, 0, 4, 0]
    (mkWavHeader 0 0 0) 0 0 (by decide) (by decide)
  refine ⟨rp, rr, ?_, by rw [hpf]; rfl, by rw [hrf]; rfl, hpr, hpc, hrr, hrc⟩
  have e1 : lowRateEnv.input "far.wav" = some (wavHeaderBytes 50 1 4 ++ [1, 0, 2, 0]) := by
    decide
  have e2 : lowRateEnv.input "near.wav" = some (wavHeaderBytes 50 1 4 ++ [3, 0, 4, 0]) := by
    decide
  have e3 : lowRateEnv.output_ok "out.wav" = true := rfl
  have e4 : lowRateEnv.uninit_header = mkWavHeader 0 0 0 := rfl
  have e5 : lowRateEnv.uninit_rate = 0 := rfl
  have e6 : lowRateEnv.uninit_channels = 0 := rfl
  unfold openAndValidate
  simp only [e1, e2, e3, e4, e5, e6, hp, hr, hpok, hrok, Option.some_bind, Bool.not_true,
    Bool.false_eq_true, if_false]

/-- C11 (code defect). Two valid mono 16-bit files at 50 Hz pass header validation, the
frame length of both is 0, and no number of turns ends the frame loop of either driver:
whatever the engine and the fuel, `main` and `debug_main` do not return, so header
finalisation is never reached.  The claim asks for termination by stream exhaustion. -/
theorem frame_loop_never_ends_at_50_hz {δ σ : Type} (D : Dumper δ σ) (E : Engine σ)
    (apm : σ) (fuel : Nat) :
    frame_size 50 1 = 0
    ∧ main E apm fuel ["prog", "far.wav", "near.wav", "out.wav"] lowRateEnv = none
    ∧ debug_main D E apm fuel ["prog", "far.wav", "near.wav", "out.wav"] lowRateEnv
        = none := by
  obtain ⟨rp, rr, hv, hpg, hrg, h1, h2, h3, h4⟩ := openAndValidate_lowRate
  have hz : frame_size 50 1 = 0 := by decide
  refine ⟨hz, ?_, ?_⟩
  · unfold main
    simp only [List.length_cons, List.length_nil, List.getD_cons_succ, List.getD_cons_zero,
      hv, Option.some_bind]
    simp only [processStreams, h1, h2, h3, h4]
    rw [frameLoop_zero_never E 50 1 50 1 hz hz fuel _ hpg hrg]
    rfl
  · unfold debug_main
    simp only [List.length_cons, List.length_nil, List.getD_cons_succ, List.getD_cons_zero,
      hv, Option.some_bind]
    have hd := frameLoopDebug_fst D E 50 1 50 1 fuel
      { play_file := rp.file, rec_file := rr.file,
        aec_file := writeWavHeader OStream.create 50 1 0, total_data_size := 0, apm := apm,
        frames := [] }
      (D.logProcessingParams (D.create false (stripWav "out.wav")))
    rw [frameLoop_zero_never E 50 1 50 1 hz hz fuel _ hpg hrg] at hd
    simp only [Option.map_eq_none'] at hd
    simp [h1, h2, h3, h4, OStream.tellp, hd]

/-! ## Claim theorems: the recorder -/

theorem toInt16_of_small (n : Nat) (h : n < 32768) : toInt16 (n : Int) = n := by
  unfold toInt16
  omega

/-- On a buffer without the sample -32768 the peak is the largest absolute value. -/
theorem findPeak_eq_max_abs (data : List Int) (h : ∀ x ∈ data, -32768 < x ∧ x < 32768) :
    findPeak data data.length = ((data.map Int.natAbs).foldl max 0 : Nat) := by
  unfold findPeak
  rw [List.take_length]
  have key : ∀ (l : List Int) (p : Nat), (∀ x ∈ l, -32768 < x ∧ x < 32768) →
      l.foldl (fun peak x =>
          let abs_val := toInt16 (x.natAbs : Int)
          if abs_val > peak then abs_val else peak) (p : Int)
        = ((l.map Int.natAbs).foldl max p : Nat) := by
    intro l
    induction l with
    | nil => intro p _; rfl
    | cons x t ih =>
      intro p hl
      have hx := hl x (List.mem_cons_self _ _)
      have hsmall : x.natAbs < 32768 := by omega
      simp only [List.foldl_cons, List.map_cons, toInt16_of_small _ hsmall]
      have hstep : (if (x.natAbs : Int) > (p : Int) then (x.natAbs : Int) else (p : Int))
          = ((max p x.natAbs : Nat) : Int) := by
        split <;> rename_i hc
        · have : p ≤ x.natAbs := by omega
          rw [max_eq_right this]
        · have : x.natAbs ≤ p := by omega
          rw [max_eq_left this]
      rw [hstep]
      exact ih _ (fun y hy => hl y (List.mem_cons_of_mem _ hy))
  exact key data 0 h

/-- C12 (code defect). `findPeak` stores `abs(-32768) = 32768` into an `int16_t`, where
it becomes -32768 and never exceeds the running peak: the buffer `[-32768]` gives 0 and
the buffer `[100, -32768, -5]` gives 100, while the largest absolute value is 32768 in
both.  The empty buffer gives 0 as the claim says. -/
theorem findPeak_misses_min_sample :
    findPeak [-32768] 1 = 0
    ∧ findPeak [100, -32768, -5] 3 = 100
    ∧ toInt16 (((-32768 : Int).natAbs : Nat) : Int) = -32768
    ∧ findPeak [] 0 = 0 := by
  decide

/-- Run with three arguments, the debug driver leaves what the plain driver leaves:
same exit code, same streams constructed, same output file, same loop variables. -/
theorem debug_main_fst {δ σ : Type} (D : Dumper δ σ) (E : Engine σ) (apm : σ) (fuel : Nat)
    (argv : List String) (env : Env) (hargs : argv.length = 4) :
    (debug_main D E apm fuel argv env).map Prod.fst = main E apm fuel argv env := by
  unfold debug_main main
  simp only [hargs, Nat.lt_irrefl, decide_False, Bool.false_or, gt_iff_lt,
    show ¬ (5 < 4) by decide, Bool.false_eq_true, if_false, ne_eq, not_true_eq_false]
  cases hv : openAndValidate env (argv.getD 1 "") (argv.getD 2 "") (argv.getD 3 "") with
  | none => rfl
  | some v =>
    cases v with
    | error code => rfl
    | ok p =>
      obtain ⟨rp, rr⟩ := p
      simp only [Option.some_bind, processStreams, OStream.tellp, Option.map_map]
      rw [← frameLoopDebug_fst D E rp.sample_rate rp.channels rr.sample_rate rr.channels fuel
        _ (D.logProcessingParams (D.create (4 == 5 && argv.getD 4 "" == "--debug")
          (stripWav (argv.getD 3 ""))))]
      simp only [Option.map_map]
      rfl

/-- A recorder state that `dumpFrame` and `dumpEchoMetrics` leave as it is comes out
of the debug loop as it went in. -/
theorem frameLoopDebug_snd {δ σ : Type} (D : Dumper δ σ) (E : Engine σ)
    (psr pch rsr rch : Nat) (d : δ)
    (hframe : ∀ a b c n m, D.dumpFrame d a b c n m = d)
    (hecho : ∀ s, D.dumpEchoMetrics d s = d) (fuel : Nat) :
    ∀ (st : LoopState σ) (r : LoopState σ × δ),
      frameLoopDebug D E psr pch rsr rch fuel st d = some r → r.2 = d := by
  induction fuel with
  | zero => intro st r h; simp [frameLoopDebug] at h
  | succ k ih =>
    intro st r h
    unfold frameLoopDebug at h
    simp only [] at h
    split at h
    · split at h
      · simp only [Option.some.injEq] at h
        rw [← h]
      · rw [hframe, hecho] at h
        exact ih _ _ h
    · simp only [Option.some.injEq] at h
      rw [← h]

/-- C13. Inactive recorder is a no-op: on a recorder that is not enabled `dumpFrame`,
`dumpEchoMetrics` and `logProcessingParams` return the recorder unchanged (frame
counter and all files); and for all input files, every engine and every fuel, the
debug driver run with three arguments has the same exit code and writes byte for byte
the same output file as the plain driver, its flag off and its recorder left as
constructed. -/
theorem inactive_recorder_noop {ρ σ : Type} (N : Numerics ρ) (can_open : String → Bool)
    (kHigh : Int) (GetStatistics : σ → Stats ρ) (E : Engine σ) (apm : σ) (fuel : Nat)
    (argv : List String) (env : Env) (d : DataDumper ρ) (hd : d.enabled = false)
    (hargs : argv.length = 4) :
    (∀ play_data rec_data processed_data n m,
        DataDumper.dumpFrame N d play_data rec_data processed_data n m = d)
    ∧ (∀ stats, DataDumper.dumpEchoMetrics N d stats = d)
    ∧ (∀ config, DataDumper.logProcessingParams can_open d config = d)
    ∧ (debug_main (DataDumper.asDumper N can_open kHigh GetStatistics) E apm fuel argv
          env).map (fun r => (r.1.exit_code, r.1.output))
        = (main E apm fuel argv env).map (fun r => (r.exit_code, r.output))
    ∧ (∀ r, debug_main (DataDumper.asDumper N can_open kHigh GetStatistics) E apm fuel argv
          env = some r →
        r.2.1 = false
        ∧ ∀ d', r.2.2 = some d' →
            d' = DataDumper.new can_open false (stripWav (argv.getD 3 ""))) := by
  refine ⟨?_, ?_, ?_, ?_, ?_⟩
  · intro a b c n m
    simp [DataDumper.dumpFrame, hd]
  · intro stats
    simp [DataDumper.dumpEchoMetrics, hd]
  · intro config
    simp [DataDumper.logProcessingParams, hd]
  · have h := debug_main_fst (DataDumper.asDumper N can_open kHigh GetStatistics) E apm fuel
      argv env hargs
    rw [← h, Option.map_map]
    rfl
  · intro r hr
    unfold debug_main at hr
    simp only [hargs, Nat.lt_irrefl, decide_False, Bool.false_or, gt_iff_lt,
      show ¬ (5 < 4) by decide, Bool.false_eq_true, if_false,
      show (4 == 5) = false by decide, Bool.false_and] at hr
    cases hv : openAndValidate env (argv.getD 1 "") (argv.getD 2 "") (argv.getD 3 "") with
    | none => rw [hv] at hr; simp at hr
    | some v =>
      rw [hv] at hr
      cases v with
      | error code =>
        simp only [Option.some_bind, Option.some.injEq] at hr
        rw [← hr]
        exact ⟨rfl, fun d' hd' => by simp at hd'⟩
      | ok p =>
        obtain ⟨rp, rr⟩ := p
        simp only [Option.some_bind, Option.map_eq_some'] at hr
        obtain ⟨w, hw, hr⟩ := hr
        rw [← hr]
        refine ⟨rfl, ?_⟩
        intro d' hd'
        simp only [Option.some.injEq] at hd'
        rw [← hd']
        have hfix : (DataDumper.asDumper N can_open kHigh GetStatistics).logProcessingParams
            ((DataDumper.asDumper N can_open kHigh GetStatistics).create false
              (stripWav (argv.getD 3 "")))
            = DataDumper.new can_open false (stripWav (argv.getD 3 "")) := by
          simp [DataDumper.asDumper, DataDumper.logProcessingParams, DataDumper.new]
        rw [hfix] at hw
        exact frameLoopDebug_snd (DataDumper.asDumper N can_open kHigh GetStatistics) E _ _ _ _
          (DataDumper.new can_open false (stripWav (argv.getD 3 "")))
          (fun a b c n m => by simp [DataDumper.asDumper, DataDumper.dumpFrame, DataDumper.new])
          (fun s => by simp [DataDumper.asDumper, DataDumper.dumpEchoMetrics, DataDumper.new])
          fuel _ w hw

/-- Witness of C13: on the two demo files the debug driver without the flag and the
plain driver both exit with code 0 and write the same 48 bytes. -/
theorem inactive_recorder_noop_witness :
    (debug_main (DataDumper.asDumper Numerics.sumSquares (fun _ => true) 2
          (noStats : Unit → Stats Int)) Engine.passthrough () 5
          ["prog", "far.wav", "near.wav", "out.wav"] demoEnv).map
        (fun r => (r.1.exit_code, r.1.output))
      = (main Engine.passthrough () 5 ["prog", "far.wav", "near.wav", "out.wav"]
          demoEnv).map (fun r => (r.exit_code, r.output))
    ∧ (main Engine.passthrough () 5 ["prog", "far.wav", "near.wav", "out.wav"]
          demoEnv).map (fun r => (r.exit_code, r.output.map List.length))
        = some (0, some 48) :=
  ⟨(inactive_recorder_noop Numerics.sumSquares (fun _ => true) 2
      (noStats : Unit → Stats Int) Engine.passthrough () 5
      ["prog", "far.wav", "near.wav", "out.wav"] demoEnv
      (DataDumper.new (fun _ => true) false "out") rfl rfl).2.2.2.1, by decide⟩

end AudioProc
